import Mathlib

set_option linter.unusedVariables false
set_option linter.unreachableTactic false
set_option linter.unusedTactic false
set_option maxRecDepth 8192
set_option maxHeartbeats 1000000

namespace ThumbGridIme

/-!
Shallow embedding of the ThumbGrid IME core:
`src/src/ime_custom.c`, `src/include/ime_custom.h`,
`src/include/plugin_common.h`, `src/include/thumbgrid_ipc.h` and the
IPC reader loop of `src/shell-overlay/src/main.c`.

Modelling conventions:
* C arrays (`uint16_t output[256]`, clipboards, caller buffers) are total
  functions `Nat → Nat`; a store `arr[i] = v` is the pointwise update `st`.
* `uint32_t`/`uint64_t` become `Nat` (subtraction sites are noted where the
  C guards rule out wrap-around), `int32_t`/`int64_t`/`int8_t` become `Int`
  (C `%` on `int64_t` is truncated division, i.e. `Int.tmod`).
* A C function mutating the session becomes a Lean function returning the
  new session (paired with its `bool` result where the C returns one).
* NULL-pointer guards on the session pointer itself are not modelled (the
  session is passed by value); nullable *data* pointers (`prefill`,
  `caller_buffer`) are modelled as `Option` / a presence flag.
-/

/-- `IME_MAX_OUTPUT_LENGTH` from ime_custom.h: size of `output`/`clipboard`. -/
def IME_MAX_OUTPUT_LENGTH : Nat := 256

/-- `IME_MAX_CHARSET_SIZE` from ime_custom.h. -/
def IME_MAX_CHARSET_SIZE : Nat := 96

/-- Array store: `st f i v` is the array `f` after `f[i] = v`. -/
def st (f : Nat → Nat) (i v : Nat) : Nat → Nat :=
  fun j => if j = i then v else f j

/-- Character codes of a Lean string, for transcribing the C charset literals. -/
def strCodes (s : String) : List Nat := s.toList.map Char.toNat

/-- `IME_DEFAULT_CHARSET` from ime_custom.h (39 is the ASCII apostrophe that
sits between the question mark and the hyphen in the C literal). -/
def IME_DEFAULT_CHARSET : List Nat :=
  strCodes "ABCDEFGHIJKLMNOPQRSTUVWXYZ" ++
  strCodes "abcdefghijklmnopqrstuvwxyz" ++
  strCodes "0123456789" ++
  strCodes " .,!?" ++ [39] ++ strCodes "-:;@#$%&*()"

/-- `IME_NUMERIC_CHARSET` from ime_custom.h. -/
def IME_NUMERIC_CHARSET : List Nat := strCodes "0123456789.-+"

/-- `IME_URL_CHARSET` from ime_custom.h (39 is the ASCII apostrophe between
the ampersand and the opening parenthesis in the C literal). -/
def IME_URL_CHARSET : List Nat :=
  strCodes "abcdefghijklmnopqrstuvwxyz" ++
  strCodes "0123456789" ++
  strCodes ".-_~:/?#[]@!$&" ++ [39] ++ strCodes "()*+,;=%"

/-- Panel-type constants from ime_hook.h. -/
def ORBIS_IME_PANEL_TYPE_URL : Int := 2

def ORBIS_IME_PANEL_TYPE_MAIL : Int := 3

def ORBIS_IME_PANEL_TYPE_NUMBER : Int := 4

/-- The length-counting `while` loop of `charset_for_panel`: walks the string
until the NUL terminator (end of list) or the cap, whichever comes first. -/
def cstrnlen : Nat → List Nat → Nat
  | _, [] => 0
  | cap, c :: rest => if c ≠ 0 ∧ 0 < cap then cstrnlen (cap - 1) rest + 1 else 0

/-- `charset_for_panel` from ime_custom.c: charset plus its computed length. -/
def charset_for_panel (panel_type : Int) : List Nat × Nat :=
  let cs :=
    if panel_type = ORBIS_IME_PANEL_TYPE_NUMBER then IME_NUMERIC_CHARSET
    else if panel_type = ORBIS_IME_PANEL_TYPE_URL ∨
            panel_type = ORBIS_IME_PANEL_TYPE_MAIL then IME_URL_CHARSET
    else IME_DEFAULT_CHARSET
  (cs, cstrnlen IME_MAX_CHARSET_SIZE cs)

/-- `wrap_index` from ime_custom.c.  C `%` on `int64_t` truncates toward
zero, which is `Int.tmod`; the C function then corrects a negative result. -/
def wrap_index (index : Int) (length : Nat) : Nat :=
  if length = 0 then 0
  else
    let wrapped := index.tmod (length : Int)
    (if wrapped < 0 then wrapped + (length : Int) else wrapped).toNat

/-- `CLAMP` from plugin_common.h (at `Nat`, as used by `ime_session_init`). -/
def CLAMP (val lo hi : Nat) : Nat :=
  if val < lo then lo else if val > hi then hi else val

/-- Loop body of `safe_u16_strlen`: `while (len < max_len && str[len] != 0)`.
The fuel argument is `max_len - len`. -/
def strlenAux (p : Nat → Nat) : Nat → Nat → Nat
  | 0, len => len
  | fuel + 1, len => if p len ≠ 0 then strlenAux p fuel (len + 1) else len

/-- `safe_u16_strlen` from plugin_common.h; `none` is a NULL `str`. -/
def safe_u16_strlen (str : Option (Nat → Nat)) (max_len : Nat) : Nat :=
  match str with
  | none => 0
  | some p => strlenAux p max_len 0

/-- Loop of `safe_u16_copy`: `while (i < limit && src[i] != 0) dst[i] = src[i]`
followed by the terminating `dst[i] = 0`.  Fuel is `limit - i`. -/
def u16copyAux (src : Nat → Nat) : Nat → Nat → (Nat → Nat) → Nat → Nat
  | 0, i, dst => st dst i 0
  | fuel + 1, i, dst =>
      if src i ≠ 0 then u16copyAux src fuel (i + 1) (st dst i (src i))
      else st dst i 0

/-- `safe_u16_copy` from plugin_common.h; `none` is a NULL `src` (the NULL
`dst` guard is handled at call sites, where the destination pointer lives). -/
def safe_u16_copy (dst : Nat → Nat) (src : Option (Nat → Nat))
    (max_dst_chars : Nat) : Nat → Nat :=
  if max_dst_chars = 0 then dst
  else
    match src with
    | none => st dst 0 0
    | some p => u16copyAux p (max_dst_chars - 1) 0 dst

/-- `ImeCustomState` from ime_custom.h. -/
inductive ImeCustomState where
  | inactive
  | active
  | confirming
  | cancelled
deriving DecidableEq, Repr

/-- `ImeCycleConfig` from ime_custom.h. -/
structure ImeCycleConfig where
  initial_delay_ms : Nat
  repeat_interval_ms : Nat
  accel_threshold_ms : Nat
  accel_interval_ms : Nat
deriving DecidableEq, Repr

/-- `ImeSession` from ime_custom.h.  `caller_buffer` records whether the
stored caller pointer is non-NULL; the pointed-to buffer itself is passed
explicitly to `ime_session_submit`. -/
structure ImeSession where
  state : ImeCustomState
  charset : List Nat
  charset_length : Nat
  cursor_index : Nat
  output : Nat → Nat
  output_length : Nat
  max_output_length : Nat
  text_cursor : Nat
  selected_all : Bool
  sel_start : Nat
  sel_end : Nat
  last_cycle_time_us : Nat
  hold_start_time_us : Nat
  dpad_held : Bool
  hold_direction : Int
  cycle_config : ImeCycleConfig
  caller_buffer : Bool
  panel_type : Int
  clipboard : Nat → Nat
  clipboard_length : Nat

/-- The all-zero session produced by `memset(session, 0, sizeof(ImeSession))`
(state 0 is `IME_STATE_INACTIVE`, pointers NULL, arrays zero-filled). -/
def zeroSession : ImeSession where
  state := .inactive
  charset := []
  charset_length := 0
  cursor_index := 0
  output := fun _ => 0
  output_length := 0
  max_output_length := 0
  text_cursor := 0
  selected_all := false
  sel_start := 0
  sel_end := 0
  last_cycle_time_us := 0
  hold_start_time_us := 0
  dpad_held := false
  hold_direction := 0
  cycle_config := ⟨0, 0, 0, 0⟩
  caller_buffer := false
  panel_type := 0
  clipboard := fun _ => 0
  clipboard_length := 0

/-- `ime_session_init` from ime_custom.c.  `prev` is the memory the session
pointer refers to before the call; the `memset` discards it entirely. -/
def ime_session_init (prev : ImeSession) (panel_type : Int) (max_length : Nat)
    (caller_buffer : Bool) (prefill : Option (Nat → Nat)) : ImeSession :=
  let max_length :=
    if max_length = 0 ∨ max_length > IME_MAX_OUTPUT_LENGTH
    then CLAMP max_length 1 IME_MAX_OUTPUT_LENGTH else max_length
  let cs := charset_for_panel panel_type
  let s : ImeSession :=
    { zeroSession with
      state := .active
      panel_type := panel_type
      caller_buffer := caller_buffer
      max_output_length := max_length
      charset := cs.1
      charset_length := cs.2
      cursor_index := 0
      cycle_config := ⟨400, 150, 1500, 50⟩ }
  match prefill with
  | none => s
  | some _ =>
      let prefill_len := safe_u16_strlen prefill max_length
      { s with
        output := safe_u16_copy s.output prefill max_length
        output_length := prefill_len
        text_cursor := prefill_len }

/-- `ime_session_cycle` from ime_custom.c. -/
def ime_session_cycle (s : ImeSession) (delta : Int) : ImeSession :=
  if s.state ≠ .active then s
  else if s.charset_length = 0 then s
  else
    { s with cursor_index := wrap_index ((s.cursor_index : Int) + delta) s.charset_length }

/-- `ime_session_confirm_char` from ime_custom.c. -/
def ime_session_confirm_char (s : ImeSession) : ImeSession × Bool :=
  if s.state ≠ .active then (s, false)
  else if s.output_length ≥ s.max_output_length then (s, false)
  else if s.cursor_index ≥ s.charset_length then (s, false)
  else
    let c := s.charset.getD s.cursor_index 0
    let out := st s.output s.output_length c
    let len := s.output_length + 1
    let out := st out len 0
    ({ s with output := out, output_length := len, cursor_index := 0 }, true)

/-- Loop of `ime_session_delete_selection` (and of the plain-backspace path,
with `del_len = 1`): `for (i = s; i + del_len < output_length; i++)
output[i] = output[i + del_len]`.  Fuel is the iteration count. -/
def delShiftAux (del_len : Nat) : Nat → Nat → (Nat → Nat) → Nat → Nat
  | 0, _, f => f
  | fuel + 1, i, f => delShiftAux del_len fuel (i + 1) (st f i (f (i + del_len)))

/-- `ime_session_delete_selection` from ime_custom.c. -/
def ime_session_delete_selection (s : ImeSession) : ImeSession :=
  if s.state ≠ .active then s
  else if s.sel_start = s.sel_end then s
  else
    let p := if s.sel_start > s.sel_end then (s.sel_end, s.sel_start)
             else (s.sel_start, s.sel_end)
    let a := p.1
    let e := if p.2 > s.output_length then s.output_length else p.2
    if a > s.output_length then s
    else
      let del_len := e - a
      let out := delShiftAux del_len (s.output_length - (a + del_len)) a s.output
      let len := s.output_length - del_len
      let out := st out len 0
      { s with output := out, output_length := len, text_cursor := a,
               sel_start := 0, sel_end := 0, selected_all := false }

/-- `clear_if_selected` from ime_custom.c. -/
def clear_if_selected (s : ImeSession) : ImeSession :=
  if s.selected_all then
    { s with output_length := 0, text_cursor := 0, output := st s.output 0 0,
             selected_all := false, sel_start := 0, sel_end := 0 }
  else if s.sel_start ≠ s.sel_end then ime_session_delete_selection s
  else s

/-- Insertion shift loop of `ime_session_add_char16`:
`for (i = output_length; i > pos; i--) output[i] = output[i - 1]`.
Fuel is the iteration count `output_length - pos`. -/
def insShiftAux : Nat → Nat → (Nat → Nat) → Nat → Nat
  | 0, _, f => f
  | fuel + 1, i, f => insShiftAux fuel (i - 1) (st f i (f (i - 1)))

/-- `ime_session_add_char16` from ime_custom.c. -/
def ime_session_add_char16 (s0 : ImeSession) (c : Nat) : ImeSession × Bool :=
  if s0.state ≠ .active then (s0, false)
  else
    let s := clear_if_selected s0
    if s.output_length ≥ s.max_output_length then (s, false)
    else
      let pos := if s.text_cursor > s.output_length then s.output_length
                 else s.text_cursor
      let out := insShiftAux (s.output_length - pos) s.output_length s.output
      let out := st out pos c
      let len := s.output_length + 1
      let out := st out len 0
      ({ s with output := out, output_length := len, text_cursor := pos + 1 }, true)

/-- `ime_session_add_char` from ime_custom.c (the `char` is widened). -/
def ime_session_add_char (s : ImeSession) (c : Nat) : ImeSession × Bool :=
  ime_session_add_char16 s c

/-- `ime_session_backspace` from ime_custom.c. -/
def ime_session_backspace (s : ImeSession) : ImeSession × Bool :=
  if s.state ≠ .active then (s, false)
  else if s.selected_all then
    ({ s with output_length := 0, text_cursor := 0, output := st s.output 0 0,
              selected_all := false, sel_start := 0, sel_end := 0 }, true)
  else if s.sel_start ≠ s.sel_end then (ime_session_delete_selection s, true)
  else if s.text_cursor = 0 ∨ s.output_length = 0 then (s, false)
  else
    let pos := s.text_cursor - 1
    let out := delShiftAux 1 (s.output_length - 1 - pos) pos s.output
    let len := s.output_length - 1
    let out := st out len 0
    ({ s with output := out, output_length := len, text_cursor := pos }, true)

/-- `ime_session_cursor_left` from ime_custom.c. -/
def ime_session_cursor_left (s : ImeSession) : ImeSession :=
  if s.state ≠ .active then s
  else
    let s := { s with selected_all := false }
    if s.text_cursor > 0 then { s with text_cursor := s.text_cursor - 1 } else s

/-- `ime_session_cursor_right` from ime_custom.c. -/
def ime_session_cursor_right (s : ImeSession) : ImeSession :=
  if s.state ≠ .active then s
  else
    let s := { s with selected_all := false }
    if s.text_cursor < s.output_length then { s with text_cursor := s.text_cursor + 1 }
    else s

/-- `ime_session_cursor_home` from ime_custom.c. -/
def ime_session_cursor_home (s : ImeSession) : ImeSession :=
  if s.state ≠ .active then s
  else { s with selected_all := false, text_cursor := 0 }

/-- `ime_session_cursor_end` from ime_custom.c. -/
def ime_session_cursor_end (s : ImeSession) : ImeSession :=
  if s.state ≠ .active then s
  else { s with selected_all := false, text_cursor := s.output_length }

/-- `ime_session_set_selection` from ime_custom.c. -/
def ime_session_set_selection (s : ImeSession) (a b : Nat) : ImeSession :=
  if s.state ≠ .active then s
  else
    let a := if a > s.output_length then s.output_length else a
    let b := if b > s.output_length then s.output_length else b
    let p := if a > b then (b, a) else (a, b)
    { s with sel_start := p.1, sel_end := p.2, selected_all := false }

/-- `ime_session_clear_selection` from ime_custom.c (note: no Active guard). -/
def ime_session_clear_selection (s : ImeSession) : ImeSession :=
  { s with sel_start := 0, sel_end := 0, selected_all := false }

/-- `ime_session_select_all` from ime_custom.c. -/
def ime_session_select_all (s : ImeSession) : ImeSession :=
  if s.state ≠ .active then s
  else if s.output_length = 0 then s
  else
    { s with selected_all := true, sel_start := 0, sel_end := s.output_length,
             text_cursor := s.output_length }

/-- `ime_session_submit` from ime_custom.c.  `dst` is the array the stored
caller pointer refers to; the copy happens only when that pointer is
non-NULL (`s.caller_buffer`). -/
def ime_session_submit (s : ImeSession) (dst : Nat → Nat) :
    ImeSession × (Nat → Nat) :=
  if s.state ≠ .active then (s, dst)
  else
    let dst := if s.caller_buffer then
                 safe_u16_copy dst (some s.output) s.max_output_length
               else dst
    ({ s with state := .confirming }, dst)

/-- `ime_session_cancel` from ime_custom.c (note: no Active guard). -/
def ime_session_cancel (s : ImeSession) : ImeSession :=
  { s with state := .cancelled }

/-- Elementwise `memcpy` between the session's arrays:
`dst[dOff + j] = src[sOff + j]` for `j < len`. -/
def memcpyAux (src : Nat → Nat) (dOff sOff : Nat) : Nat → Nat → (Nat → Nat) → Nat → Nat
  | 0, _, dst => dst
  | fuel + 1, j, dst => memcpyAux src dOff sOff fuel (j + 1) (st dst (dOff + j) (src (sOff + j)))

/-- `memcpy16 dst dOff src sOff len` copies `len` entries of `src` starting
at `sOff` into `dst` starting at `dOff`. -/
def memcpy16 (dst : Nat → Nat) (dOff : Nat) (src : Nat → Nat) (sOff len : Nat) :
    Nat → Nat :=
  memcpyAux src dOff sOff len 0 dst

/-- Common tail of `ime_session_copy` once the selection bounds `[a, e)` are
known: length clamp, `memcpy` into the clipboard, length update. -/
def copyRange (s : ImeSession) (a e : Nat) : ImeSession :=
  let len := e - a
  let len := if len > IME_MAX_OUTPUT_LENGTH then IME_MAX_OUTPUT_LENGTH else len
  { s with clipboard := memcpy16 s.clipboard 0 s.output a len,
           clipboard_length := len }

/-- `ime_session_copy` from ime_custom.c. -/
def ime_session_copy (s : ImeSession) : ImeSession :=
  if s.state ≠ .active then s
  else if s.selected_all then copyRange s 0 s.output_length
  else if s.sel_start ≠ s.sel_end then
    if s.sel_start > s.sel_end then copyRange s s.sel_end s.sel_start
    else copyRange s s.sel_start s.sel_end
  else s

/-- `ime_session_cut` from ime_custom.c. -/
def ime_session_cut (s : ImeSession) : ImeSession :=
  if s.state ≠ .active then s
  else
    let s := ime_session_copy s
    if s.clipboard_length > 0 then
      if s.selected_all then
        { s with output_length := 0, text_cursor := 0, output := st s.output 0 0,
                 selected_all := false, sel_start := 0, sel_end := 0 }
      else ime_session_delete_selection s
    else s

/-- Right-shift loop of `ime_session_paste`:
`for (i = output_length; i > pos; i--) output[i + paste_len - 1] = output[i - 1]`.
Fuel is the iteration count `output_length - pos`. -/
def pasteShiftAux (paste_len : Nat) : Nat → Nat → (Nat → Nat) → Nat → Nat
  | 0, _, f => f
  | fuel + 1, i, f => pasteShiftAux paste_len fuel (i - 1) (st f (i + paste_len - 1) (f (i - 1)))

/-- `ime_session_paste` from ime_custom.c. -/
def ime_session_paste (s0 : ImeSession) : ImeSession :=
  if s0.state ≠ .active then s0
  else if s0.clipboard_length = 0 then s0
  else
    let s :=
      if s0.selected_all then
        { s0 with output_length := 0, text_cursor := 0, output := st s0.output 0 0,
                  selected_all := false, sel_start := 0, sel_end := 0 }
      else if s0.sel_start ≠ s0.sel_end then ime_session_delete_selection s0
      else s0
    let avail := s.max_output_length - s.output_length
    let paste_len := if s.clipboard_length > avail then avail else s.clipboard_length
    if paste_len = 0 then s
    else
      let pos := if s.text_cursor > s.output_length then s.output_length
                 else s.text_cursor
      let out := pasteShiftAux paste_len (s.output_length - pos) s.output_length s.output
      let out := memcpy16 out pos s.clipboard 0 paste_len
      let len := s.output_length + paste_len
      let out := st out len 0
      { s with output := out, output_length := len, text_cursor := pos + paste_len }

/-- `ime_session_update_timing` from ime_custom.c. -/
def ime_session_update_timing (s : ImeSession) (current_us : Nat) : ImeSession :=
  if s.state ≠ .active then s
  else if s.dpad_held = false ∨ s.hold_direction = 0 then s
  else
    let held_ms := (current_us - s.hold_start_time_us) / 1000
    let since_ms := (current_us - s.last_cycle_time_us) / 1000
    let interval :=
      if held_ms > s.cycle_config.accel_threshold_ms then s.cycle_config.accel_interval_ms
      else s.cycle_config.repeat_interval_ms
    if held_ms < s.cycle_config.initial_delay_ms then s
    else if since_ms < interval then s
    else { ime_session_cycle s s.hold_direction with last_cycle_time_us := current_us }

/-! ### Pointwise characterizations of the array loops -/

theorem st_apply (f : Nat → Nat) (i v j : Nat) :
    st f i v j = if j = i then v else f j := rfl

theorem memcpyAux_apply (src : Nat → Nat) (dOff sOff : Nat) :
    ∀ (fuel j : Nat) (dst : Nat → Nat) (k : Nat),
      memcpyAux src dOff sOff fuel j dst k =
        if dOff + j ≤ k ∧ k < dOff + j + fuel then src (sOff + (k - dOff))
        else dst k := by
  intro fuel
  induction fuel with
  | zero =>
      intro j dst k
      simp only [memcpyAux]
      split_ifs <;> first | rfl | (exfalso; omega)
  | succ fuel ih =>
      intro j dst k
      simp only [memcpyAux]
      rw [ih]
      simp only [st_apply]
      split_ifs <;> first | rfl | (exfalso; omega) | (congr 1; omega)

theorem memcpy16_apply (dst : Nat → Nat) (dOff : Nat) (src : Nat → Nat)
    (sOff len k : Nat) :
    memcpy16 dst dOff src sOff len k =
      if dOff ≤ k ∧ k < dOff + len then src (sOff + (k - dOff)) else dst k := by
  unfold memcpy16
  rw [memcpyAux_apply]
  congr 2 <;> omega

theorem delShiftAux_apply (del : Nat) :
    ∀ (fuel i : Nat) (f : Nat → Nat) (k : Nat),
      delShiftAux del fuel i f k =
        if i ≤ k ∧ k < i + fuel then f (k + del) else f k := by
  intro fuel
  induction fuel with
  | zero =>
      intro i f k
      simp only [delShiftAux]
      split_ifs <;> first | rfl | (exfalso; omega)
  | succ fuel ih =>
      intro i f k
      simp only [delShiftAux]
      rw [ih]
      simp only [st_apply]
      split_ifs <;> first | rfl | (exfalso; omega) | (congr 1; omega)

theorem pasteShiftAux_apply (plen : Nat) (hp : 1 ≤ plen) :
    ∀ (fuel i : Nat) (f : Nat → Nat) (k : Nat), fuel ≤ i →
      pasteShiftAux plen fuel i f k =
        if i + plen ≤ k + fuel ∧ k < i + plen then f (k - plen) else f k := by
  intro fuel
  induction fuel with
  | zero =>
      intro i f k _
      simp only [pasteShiftAux]
      split_ifs <;> first | rfl | (exfalso; omega)
  | succ fuel ih =>
      intro i f k hfi
      simp only [pasteShiftAux]
      rw [ih _ _ _ (by omega)]
      simp only [st_apply]
      split_ifs <;> first | rfl | (exfalso; omega) | (congr 1; omega)

theorem u16copyAux_apply (src : Nat → Nat) :
    ∀ (m fuel i : Nat) (dst : Nat → Nat), m ≤ fuel →
      (∀ j, j < m → src (i + j) ≠ 0) → (m < fuel → src (i + m) = 0) →
      ∀ k, u16copyAux src fuel i dst k =
        if i ≤ k ∧ k < i + m then src k
        else if k = i + m then 0 else dst k := by
  intro m
  induction m with
  | zero =>
      intro fuel i dst hmf hnz hz k
      cases fuel with
      | zero =>
          simp only [u16copyAux, st_apply]
          split_ifs <;> first | rfl | (exfalso; omega) | (congr 1; omega)
      | succ fuel =>
          have h0 : src i = 0 := by simpa using hz (by omega)
          simp only [u16copyAux, h0, ne_eq, not_true_eq_false, if_false, st_apply]
          split_ifs <;> first | rfl | (exfalso; omega) | (congr 1; omega)
  | succ m ih =>
      intro fuel i dst hmf hnz hz k
      cases fuel with
      | zero => exact absurd hmf (by omega)
      | succ fuel =>
          have h0 : src i ≠ 0 := by simpa using hnz 0 (by omega)
          simp only [u16copyAux, h0, ne_eq, not_false_eq_true, if_true]
          rw [ih fuel (i + 1) _ (by omega)
              (fun j hj => by
                have hj2 := hnz (j + 1) (by omega)
                rw [show i + 1 + j = i + (j + 1) by omega]
                exact hj2)
              (fun hlt => by
                have hm2 := hz (by omega)
                rw [show i + 1 + m = i + (m + 1) by omega]
                exact hm2)]
          simp only [st_apply]
          split_ifs <;> first | rfl | (exfalso; omega) | (congr 1; omega)

/-! ### Arithmetic of `wrap_index` -/

theorem neg_tmod (a b : Int) : (-a).tmod b = -(a.tmod b) := by
  rw [Int.tmod_def, Int.tmod_def, Int.neg_tdiv]
  ring

theorem wrap_index_eq_emod (idx : Int) (n : Nat) (hn : 0 < n) :
    (wrap_index idx n : Int) = idx % (n : Int) := by
  unfold wrap_index
  rw [if_neg (by omega)]
  show ((if idx.tmod (n : Int) < 0 then idx.tmod (n : Int) + (n : Int)
         else idx.tmod (n : Int)).toNat : Int) = idx % (n : Int)
  have hbn : (0 : Int) < (n : Int) := by exact_mod_cast hn
  have htn : idx.tmod (n : Int) < (n : Int) := Int.tmod_lt_of_pos idx hbn
  have hlow : -(n : Int) < idx.tmod (n : Int) := by
    have h2 : (-idx).tmod (n : Int) = -(idx.tmod (n : Int)) := neg_tmod idx (n : Int)
    have h3 := Int.tmod_lt_of_pos (-idx) hbn
    omega
  have hcong : idx % (n : Int) = idx.tmod (n : Int) % (n : Int) := by
    conv_lhs => rw [← Int.tmod_add_tdiv idx (n : Int)]
    rw [Int.add_mul_emod_self_left]
  by_cases hneg : idx.tmod (n : Int) < 0
  · rw [if_pos hneg, Int.toNat_of_nonneg (by omega), hcong,
        ← Int.add_mul_emod_self_left (idx.tmod (n : Int)) (n : Int) 1, Int.mul_one,
        Int.emod_eq_of_lt (by omega) (by omega)]
  · rw [if_neg hneg, Int.toNat_of_nonneg (by omega), hcong,
        Int.emod_eq_of_lt (by omega) (by omega)]

theorem wrap_index_lt (idx : Int) (n : Nat) (hn : 0 < n) : wrap_index idx n < n := by
  have h1 := wrap_index_eq_emod idx n hn
  have h2 : idx % (n : Int) < (n : Int) := Int.emod_lt_of_pos idx (by exact_mod_cast hn)
  omega

theorem wrap_index_natCast (m n : Nat) (hn : 0 < n) :
    wrap_index (m : Int) n = m % n := by
  have h1 := wrap_index_eq_emod (m : Int) n hn
  have h2 : ((m : Int) % (n : Int)) = ((m % n : Nat) : Int) := (Int.ofNat_emod m n).symm
  omega

theorem wrap_index_add_one (i n : Nat) (hn : 0 < n) :
    wrap_index ((i : Int) + 1) n = (i + 1) % n := by
  have h : ((i : Int) + 1) = ((i + 1 : Nat) : Int) := by push_cast; ring
  rw [h, wrap_index_natCast _ _ hn]

theorem wrap_index_sub_one (j n : Nat) (hn : 0 < n) (hj : j < n) :
    wrap_index ((j : Int) - 1) n = if j = 0 then n - 1 else j - 1 := by
  have h1 := wrap_index_eq_emod ((j : Int) - 1) n hn
  by_cases h0 : j = 0
  · subst h0
    rw [if_pos rfl]
    have h3 : (-1 : Int) % (n : Int) = (n : Int) - 1 := by
      have h4 : (-1 + (n : Int) * 1) % (n : Int) = (-1 : Int) % (n : Int) :=
        Int.add_mul_emod_self_left (-1) (n : Int) 1
      have h5 : (-1 + (n : Int) * 1) % (n : Int) = -1 + (n : Int) * 1 :=
        Int.emod_eq_of_lt (by omega) (by omega)
      omega
    have h6 : ((0 : Nat) : Int) - 1 = -1 := by norm_num
    rw [h6] at h1 ⊢
    omega
  · rw [if_neg h0]
    have h2 : ((j : Int) - 1) = ((j - 1 : Nat) : Int) := by omega
    rw [h2] at h1 ⊢
    have h3 : (((j - 1 : Nat) : Int)) % (n : Int) = ((j - 1 : Nat) : Int) :=
      Int.emod_eq_of_lt (by omega) (by omega)
    omega

/-! ### The session representation invariant -/

/-- The numeric-field invariant maintained by every editing operation:
the cursor stays inside the text, the text inside its capacity, the
capacity inside the array, the selection is normalized, and a *live*
(non-degenerate) selection range ends inside the text. -/
def Inv (s : ImeSession) : Prop :=
  s.text_cursor ≤ s.output_length ∧
  s.output_length ≤ s.max_output_length ∧
  s.max_output_length ≤ IME_MAX_OUTPUT_LENGTH ∧
  s.sel_start ≤ s.sel_end ∧
  (s.sel_start ≠ s.sel_end → s.sel_end ≤ s.output_length)

instance (s : ImeSession) : Decidable (Inv s) := by
  unfold Inv
  infer_instance

theorem Inv_delete_selection (s : ImeSession) (h : Inv s) :
    Inv (ime_session_delete_selection s) := by
  obtain ⟨h1, h2, h3, h4, h5⟩ := h
  unfold Inv
  simp only [ime_session_delete_selection]
  split_ifs <;> (try dsimp only [Inv] at *) <;>
    first
      | exact ⟨h1, h2, h3, h4, h5⟩
      | exact ⟨by omega, by omega, by omega, by omega, fun hne => by (try have h6 := h5 hne); omega⟩

theorem Inv_clear_if_selected (s : ImeSession) (h : Inv s) :
    Inv (clear_if_selected s) := by
  have h0 := h
  obtain ⟨h1, h2, h3, h4, h5⟩ := h
  simp only [clear_if_selected]
  split_ifs
  · dsimp only [Inv]
    exact ⟨by omega, by omega, by omega, by omega, fun hne => by (try have h6 := h5 hne); omega⟩
  · exact Inv_delete_selection s h0
  · exact h0

theorem Inv_add_char16 (s : ImeSession) (c : Nat) (h : Inv s) :
    Inv (ime_session_add_char16 s c).1 := by
  by_cases hst : s.state ≠ ImeCustomState.active
  · simp only [ime_session_add_char16, if_pos hst]
    exact h
  · simp only [ime_session_add_char16, if_neg hst]
    have h2 := Inv_clear_if_selected s h
    set t := clear_if_selected s with ht
    obtain ⟨a1, a2, a3, a4, a5⟩ := h2
    unfold Inv
    split_ifs with hfull hpos <;> dsimp only
    · exact ⟨a1, a2, a3, a4, a5⟩
    · refine ⟨by omega, by omega, by omega, by omega, fun hne => ?_⟩
      have h6 := a5 hne
      omega
    · refine ⟨by omega, by omega, by omega, by omega, fun hne => ?_⟩
      have h6 := a5 hne
      omega

theorem Inv_backspace (s : ImeSession) (h : Inv s) :
    Inv (ime_session_backspace s).1 := by
  have h0 := h
  obtain ⟨h1, h2, h3, h4, h5⟩ := h
  simp only [ime_session_backspace]
  split_ifs with c1 c2 c3 c4 <;> (try dsimp only [Inv])
  · exact h0
  · exact ⟨by omega, by omega, by omega, by omega, fun hne => by (try have h6 := h5 hne); omega⟩
  · exact Inv_delete_selection s h0
  · exact h0
  · exact ⟨by omega, by omega, by omega, by omega, fun hne => by (try have h6 := h5 hne); omega⟩

theorem Inv_cycle (s : ImeSession) (d : Int) (h : Inv s) :
    Inv (ime_session_cycle s d) := by
  have h0 := h
  obtain ⟨h1, h2, h3, h4, h5⟩ := h
  simp only [ime_session_cycle]
  split_ifs <;> (try dsimp only [Inv]) <;> first
    | exact h0
    | exact ⟨by omega, by omega, by omega, by omega, fun hne => by (try have h6 := h5 hne); omega⟩

theorem Inv_cursor_left (s : ImeSession) (h : Inv s) :
    Inv (ime_session_cursor_left s) := by
  have h0 := h
  obtain ⟨h1, h2, h3, h4, h5⟩ := h
  simp only [ime_session_cursor_left]
  split_ifs <;> (try dsimp only [Inv]) <;> first
    | exact h0
    | exact ⟨by omega, by omega, by omega, by omega, fun hne => by (try have h6 := h5 hne); omega⟩

theorem Inv_cursor_right (s : ImeSession) (h : Inv s) :
    Inv (ime_session_cursor_right s) := by
  have h0 := h
  obtain ⟨h1, h2, h3, h4, h5⟩ := h
  simp only [ime_session_cursor_right]
  split_ifs <;> (try dsimp only [Inv]) <;> first
    | exact h0
    | exact ⟨by omega, by omega, by omega, by omega, fun hne => by (try have h6 := h5 hne); omega⟩

theorem Inv_cursor_home (s : ImeSession) (h : Inv s) :
    Inv (ime_session_cursor_home s) := by
  have h0 := h
  obtain ⟨h1, h2, h3, h4, h5⟩ := h
  simp only [ime_session_cursor_home]
  split_ifs <;> (try dsimp only [Inv]) <;> first
    | exact h0
    | exact ⟨by omega, by omega, by omega, by omega, fun hne => by (try have h6 := h5 hne); omega⟩

theorem Inv_cursor_end (s : ImeSession) (h : Inv s) :
    Inv (ime_session_cursor_end s) := by
  have h0 := h
  obtain ⟨h1, h2, h3, h4, h5⟩ := h
  simp only [ime_session_cursor_end]
  split_ifs <;> (try dsimp only [Inv]) <;> first
    | exact h0
    | exact ⟨by omega, by omega, by omega, by omega, fun hne => by (try have h6 := h5 hne); omega⟩

theorem Inv_set_selection (s : ImeSession) (a b : Nat) (h : Inv s) :
    Inv (ime_session_set_selection s a b) := by
  have h0 := h
  obtain ⟨h1, h2, h3, h4, h5⟩ := h
  simp only [ime_session_set_selection]
  split_ifs <;> (try dsimp only [Inv]) <;> first
    | exact h0
    | exact ⟨by omega, by omega, by omega, by omega, fun hne => by (try have h6 := h5 hne); omega⟩

theorem Inv_clear_selection (s : ImeSession) (h : Inv s) :
    Inv (ime_session_clear_selection s) := by
  obtain ⟨h1, h2, h3, h4, h5⟩ := h
  simp only [ime_session_clear_selection]
  dsimp only [Inv]
  exact ⟨by omega, by omega, by omega, by omega, fun hne => by (try have h6 := h5 hne); omega⟩

theorem Inv_select_all (s : ImeSession) (h : Inv s) :
    Inv (ime_session_select_all s) := by
  have h0 := h
  obtain ⟨h1, h2, h3, h4, h5⟩ := h
  simp only [ime_session_select_all]
  split_ifs <;> (try dsimp only [Inv]) <;> first
    | exact h0
    | exact ⟨by omega, by omega, by omega, by omega, fun hne => by (try have h6 := h5 hne); omega⟩

theorem strlenAux_le (p : Nat → Nat) :
    ∀ fuel len, strlenAux p fuel len ≤ len + fuel := by
  intro fuel
  induction fuel with
  | zero => intro len; simp [strlenAux]
  | succ fuel ih =>
      intro len
      simp only [strlenAux]
      split_ifs
      · have := ih (len + 1)
        omega
      · omega

theorem Inv_init (prev : ImeSession) (panel_type : Int) (max_length : Nat)
    (caller_buffer : Bool) (prefill : Option (Nat → Nat)) :
    Inv (ime_session_init prev panel_type max_length caller_buffer prefill) := by
  unfold Inv
  simp only [ime_session_init]
  set m := (if max_length = 0 ∨ max_length > IME_MAX_OUTPUT_LENGTH
            then CLAMP max_length 1 IME_MAX_OUTPUT_LENGTH else max_length) with hm
  have hm1 : 1 ≤ m ∧ m ≤ IME_MAX_OUTPUT_LENGTH := by
    rw [hm]
    unfold CLAMP IME_MAX_OUTPUT_LENGTH
    split_ifs <;> omega
  cases prefill with
  | none =>
      dsimp only [zeroSession]
      exact ⟨by omega, by omega, by omega, by omega, fun hne => by (try have h6 := h5 hne); omega⟩
  | some p =>
      have hs1 := strlenAux_le p m 0
      simp only [safe_u16_strlen]
      dsimp only [zeroSession]
      exact ⟨by omega, by omega, by omega, by omega, fun hne => by (try have h6 := h5 hne); omega⟩

/-! ### Editing-operation sequences (for the running invariant) -/

/-- One call from the claim family: insert, backspace, deleteSelection,
the four cursor movements, and the three selection operations. -/
inductive EditOp where
  | addChar16 (c : Nat)
  | backspace
  | deleteSel
  | curLeft
  | curRight
  | curHome
  | curEnd
  | setSel (a b : Nat)
  | clearSel
  | selAll
deriving DecidableEq, Repr

/-- Apply one editing call to the session (discarding the `bool` results). -/
def applyEditOp (s : ImeSession) : EditOp → ImeSession
  | .addChar16 c => (ime_session_add_char16 s c).1
  | .backspace => (ime_session_backspace s).1
  | .deleteSel => ime_session_delete_selection s
  | .curLeft => ime_session_cursor_left s
  | .curRight => ime_session_cursor_right s
  | .curHome => ime_session_cursor_home s
  | .curEnd => ime_session_cursor_end s
  | .setSel a b => ime_session_set_selection s a b
  | .clearSel => ime_session_clear_selection s
  | .selAll => ime_session_select_all s

/-- Apply a whole sequence of editing calls. -/
def runEditOps (s : ImeSession) (ops : List EditOp) : ImeSession :=
  ops.foldl applyEditOp s

theorem Inv_applyEditOp (s : ImeSession) (op : EditOp) (h : Inv s) :
    Inv (applyEditOp s op) := by
  cases op with
  | addChar16 c => exact Inv_add_char16 s c h
  | backspace => exact Inv_backspace s h
  | deleteSel => exact Inv_delete_selection s h
  | curLeft => exact Inv_cursor_left s h
  | curRight => exact Inv_cursor_right s h
  | curHome => exact Inv_cursor_home s h
  | curEnd => exact Inv_cursor_end s h
  | setSel a b => exact Inv_set_selection s a b h
  | clearSel => exact Inv_clear_selection s h
  | selAll => exact Inv_select_all s h

theorem Inv_runEditOps (s : ImeSession) (ops : List EditOp) (h : Inv s) :
    Inv (runEditOps s ops) := by
  induction ops generalizing s with
  | nil => exact h
  | cons op rest ih => exact ih (applyEditOp s op) (Inv_applyEditOp s op h)

/-! ### Cycling helpers -/

/-- `k` successive `ime_session_cycle(session, +1)` calls. -/
def cycleN (s : ImeSession) : Nat → ImeSession
  | 0 => s
  | k + 1 => ime_session_cycle (cycleN s k) 1

theorem cycle_fields (s : ImeSession) (d : Int) :
    (ime_session_cycle s d).state = s.state ∧
    (ime_session_cycle s d).charset_length = s.charset_length := by
  simp only [ime_session_cycle]
  split_ifs <;> exact ⟨rfl, rfl⟩

theorem cycle_one_cursor (s : ImeSession) (hA : s.state = ImeCustomState.active)
    (hn : 0 < s.charset_length) :
    (ime_session_cycle s 1).cursor_index = (s.cursor_index + 1) % s.charset_length := by
  simp only [ime_session_cycle]
  rw [if_neg (by simp [hA]), if_neg (by omega)]
  exact wrap_index_add_one s.cursor_index s.charset_length hn

theorem cycleN_fields (s : ImeSession) :
    ∀ k, (cycleN s k).state = s.state ∧ (cycleN s k).charset_length = s.charset_length := by
  intro k
  induction k with
  | zero => exact ⟨rfl, rfl⟩
  | succ k ih =>
      have h := cycle_fields (cycleN s k) 1
      exact ⟨h.1.trans ih.1, h.2.trans ih.2⟩

theorem cycleN_cursor (s : ImeSession) (hA : s.state = ImeCustomState.active)
    (hn : 0 < s.charset_length) (hi : s.cursor_index < s.charset_length) :
    ∀ k, (cycleN s k).cursor_index = (s.cursor_index + k) % s.charset_length := by
  intro k
  induction k with
  | zero => simpa [cycleN] using (Nat.mod_eq_of_lt hi).symm
  | succ k ih =>
      have hf := cycleN_fields s k
      have hstep := cycle_one_cursor (cycleN s k) (by rw [hf.1]; exact hA)
        (by rw [hf.2]; exact hn)
      show (ime_session_cycle (cycleN s k) 1).cursor_index = _
      rw [hstep, hf.2, ih, Nat.mod_add_mod, Nat.add_assoc]

/-! ### Claim theorems -/

/-- Claim C1, counterexample input: three inserts, a degenerate
`setSelection(3,3)`, then one backspace. -/
def c1ops : List EditOp :=
  [EditOp.addChar16 65, EditOp.addChar16 66, EditOp.addChar16 67,
   EditOp.setSel 3 3, EditOp.backspace]

def c1sess : ImeSession := runEditOps (ime_session_init zeroSession 0 4 false none) c1ops

/-- Claim C1, as stated, is false: after `setSelection(3,3)` (a degenerate,
inactive selection) a backspace shrinks the buffer to length 2 but leaves
`sel_end = 3`, so `sel_start ≤ sel_end ≤ output_length` fails. -/
theorem claim_C1_counterexample :
    c1sess.state = ImeCustomState.active ∧
    c1sess.sel_start = 3 ∧ c1sess.sel_end = 3 ∧ c1sess.output_length = 2 ∧
    ¬(c1sess.sel_start ≤ c1sess.sel_end ∧ c1sess.sel_end ≤ c1sess.output_length) := by
  decide

/-- Claim C1 (amended): after every sequence of insert/backspace/
deleteSelection/cursor-movement/selection calls the invariant
`text_cursor ≤ output_length ≤ max_output_length ≤ 256`, `sel_start ≤ sel_end`
holds, and `sel_end ≤ output_length` holds whenever the partial selection is
live (`sel_start ≠ sel_end`); the inequality on a *degenerate* selection mark
can be violated.  It holds from any session satisfying the invariant, in
particular from any freshly initialized session. -/
theorem claim_C1 :
    (∀ (s : ImeSession) (ops : List EditOp), Inv s → Inv (runEditOps s ops)) ∧
    (∀ (prev : ImeSession) (pt : Int) (ml : Nat) (cb : Bool)
       (pf : Option (Nat → Nat)) (ops : List EditOp),
       Inv (runEditOps (ime_session_init prev pt ml cb pf) ops)) :=
  ⟨fun s ops h => Inv_runEditOps s ops h,
   fun prev pt ml cb pf ops => Inv_runEditOps _ ops (Inv_init prev pt ml cb pf)⟩

def c1wit : ImeSession := ime_session_init zeroSession 0 4 false none

theorem claim_C1_witness :
    Inv c1wit ∧ Inv (runEditOps c1wit [EditOp.addChar16 65, EditOp.backspace]) :=
  ⟨by decide, claim_C1.1 c1wit [EditOp.addChar16 65, EditOp.backspace] (by decide)⟩

theorem state_delete_selection (s : ImeSession) :
    (ime_session_delete_selection s).state = s.state := by
  simp only [ime_session_delete_selection]
  split_ifs <;> rfl

theorem state_clear_if_selected (s : ImeSession) :
    (clear_if_selected s).state = s.state := by
  simp only [clear_if_selected]
  split_ifs <;> first | rfl | exact state_delete_selection s

theorem state_copy (s : ImeSession) : (ime_session_copy s).state = s.state := by
  simp only [ime_session_copy, copyRange]
  split_ifs <;> rfl

/-- Claim C3, counterexample inputs: a session submitted into `Confirming`. -/
def c3conf : ImeSession :=
  (ime_session_submit (ime_session_init zeroSession 0 4 false none) (fun _ => 0)).1

/-- A `Confirming` session with a leftover selection mark `[1, 2)`. -/
def c3sel : ImeSession :=
  (ime_session_submit
    (runEditOps (ime_session_init zeroSession 0 4 false none)
      [EditOp.addChar16 65, EditOp.addChar16 66, EditOp.setSel 1 2])
    (fun _ => 0)).1

/-- Claim C3, as stated, is false: `ime_session_cancel` has no Active guard,
so it moves a `Confirming` session to `Cancelled` (hence `Confirming` is not
terminal and `cancel` is not a no-op outside Active), and
`ime_session_clear_selection` likewise mutates a `Confirming` session. -/
theorem claim_C3_counterexample :
    c3conf.state = ImeCustomState.confirming ∧
    (ime_session_cancel c3conf).state = ImeCustomState.cancelled ∧
    ime_session_cancel c3conf ≠ c3conf ∧
    c3sel.state = ImeCustomState.confirming ∧
    c3sel.sel_start = 1 ∧
    (ime_session_clear_selection c3sel).sel_start = 0 := by
  refine ⟨by decide, by decide, fun hcontra => ?_, by decide, by decide, by decide⟩
  exact absurd (congrArg ImeSession.state hcontra) (by decide)

/-- Claim C3 (amended): every mutating operation *except* `cancel` and
`clear_selection` leaves a non-Active session (and the caller's buffer)
completely unchanged; `cancel` sets the state to `Cancelled` from **any**
state, changing nothing else; `clear_selection` zeroes the selection fields
in **any** state, changing nothing else; no operation other than `init`,
`submit` and `cancel` ever changes the `state` field at all; `submit` maps
an Active state to `Confirming` and preserves every other state; and `init`
always yields an Active session.  So the state machine admits exactly the
transitions `init → Active` (from any state), `Active → Confirming`
(submit) and `any → Cancelled` (cancel). -/
theorem claim_C3 :
    (∀ (s : ImeSession) (c a b : Nat) (d : Int) (t : Nat) (dst : Nat → Nat),
      s.state ≠ ImeCustomState.active →
      ime_session_cycle s d = s ∧
      (ime_session_confirm_char s).1 = s ∧
      (ime_session_add_char s c).1 = s ∧
      (ime_session_add_char16 s c).1 = s ∧
      (ime_session_backspace s).1 = s ∧
      ime_session_cursor_left s = s ∧
      ime_session_cursor_right s = s ∧
      ime_session_cursor_home s = s ∧
      ime_session_cursor_end s = s ∧
      ime_session_set_selection s a b = s ∧
      ime_session_select_all s = s ∧
      ime_session_delete_selection s = s ∧
      ime_session_copy s = s ∧
      ime_session_cut s = s ∧
      ime_session_paste s = s ∧
      ime_session_update_timing s t = s ∧
      (ime_session_submit s dst).1 = s ∧ (ime_session_submit s dst).2 = dst) ∧
    (∀ s : ImeSession, ime_session_cancel s = { s with state := ImeCustomState.cancelled }) ∧
    (∀ s : ImeSession, ime_session_clear_selection s =
      { s with sel_start := 0, sel_end := 0, selected_all := false }) ∧
    (∀ (s : ImeSession) (dst : Nat → Nat),
      s.state = ImeCustomState.active →
      (ime_session_submit s dst).1.state = ImeCustomState.confirming) ∧
    (∀ (s : ImeSession) (c a b : Nat) (d : Int) (t : Nat),
      (ime_session_cycle s d).state = s.state ∧
      (ime_session_confirm_char s).1.state = s.state ∧
      (ime_session_add_char s c).1.state = s.state ∧
      (ime_session_add_char16 s c).1.state = s.state ∧
      (ime_session_backspace s).1.state = s.state ∧
      (ime_session_cursor_left s).state = s.state ∧
      (ime_session_cursor_right s).state = s.state ∧
      (ime_session_cursor_home s).state = s.state ∧
      (ime_session_cursor_end s).state = s.state ∧
      (ime_session_set_selection s a b).state = s.state ∧
      (ime_session_select_all s).state = s.state ∧
      (ime_session_delete_selection s).state = s.state ∧
      (ime_session_clear_selection s).state = s.state ∧
      (ime_session_copy s).state = s.state ∧
      (ime_session_cut s).state = s.state ∧
      (ime_session_paste s).state = s.state ∧
      (ime_session_update_timing s t).state = s.state) ∧
    (∀ (s : ImeSession) (dst : Nat → Nat),
      (ime_session_submit s dst).1.state =
        (if s.state = ImeCustomState.active then ImeCustomState.confirming
         else s.state)) ∧
    (∀ (prev : ImeSession) (pt : Int) (ml : Nat) (cb : Bool)
       (pf : Option (Nat → Nat)),
      (ime_session_init prev pt ml cb pf).state = ImeCustomState.active) := by
  refine ⟨?_, fun s => rfl, fun s => rfl, ?_, ?_, ?_, ?_⟩
  · intro s c a b d t dst h
    refine ⟨by simp [ime_session_cycle, h], by simp [ime_session_confirm_char, h],
      by simp [ime_session_add_char, ime_session_add_char16, h],
      by simp [ime_session_add_char16, h], by simp [ime_session_backspace, h],
      by simp [ime_session_cursor_left, h], by simp [ime_session_cursor_right, h],
      by simp [ime_session_cursor_home, h], by simp [ime_session_cursor_end, h],
      by simp [ime_session_set_selection, h], by simp [ime_session_select_all, h],
      by simp [ime_session_delete_selection, h], by simp [ime_session_copy, h],
      by simp [ime_session_cut, h], by simp [ime_session_paste, h],
      by simp [ime_session_update_timing, h],
      by simp [ime_session_submit, h], by simp [ime_session_submit, h]⟩
  · intro s dst h
    simp [ime_session_submit, h]
  · intro s c a b d t
    refine ⟨(cycle_fields s d).1, ?_, ?_, ?_, ?_, ?_, ?_, ?_, ?_, ?_, ?_,
      state_delete_selection s, rfl, state_copy s, ?_, ?_, ?_⟩
    · simp only [ime_session_confirm_char]
      split_ifs <;> rfl
    · simp only [ime_session_add_char, ime_session_add_char16]
      split_ifs <;> first | rfl | exact state_clear_if_selected s
    · simp only [ime_session_add_char16]
      split_ifs <;> first | rfl | exact state_clear_if_selected s
    · simp only [ime_session_backspace]
      split_ifs <;> first | rfl | exact state_delete_selection s
    · simp only [ime_session_cursor_left]
      split_ifs <;> rfl
    · simp only [ime_session_cursor_right]
      split_ifs <;> rfl
    · simp only [ime_session_cursor_home]
      split_ifs <;> rfl
    · simp only [ime_session_cursor_end]
      split_ifs <;> rfl
    · simp only [ime_session_set_selection]
      split_ifs <;> rfl
    · simp only [ime_session_select_all]
      split_ifs <;> rfl
    · simp only [ime_session_cut]
      split_ifs <;> first
        | rfl
        | exact state_copy s
        | exact (state_delete_selection (ime_session_copy s)).trans (state_copy s)
    · simp only [ime_session_paste]
      split_ifs <;> first | rfl | exact state_delete_selection s
    · simp only [ime_session_update_timing]
      split_ifs <;> first | rfl | exact (cycle_fields s s.hold_direction).1
  · intro s dst
    simp only [ime_session_submit]
    by_cases h : s.state = ImeCustomState.active
    · rw [if_pos h, if_neg (by simp [h])]
    · rw [if_neg h, if_pos h]
  · intro prev pt ml cb pf
    cases pf <;> rfl

def c3inact : ImeSession := zeroSession

theorem claim_C3_witness :
    (ime_session_cycle c3inact 1 = c3inact ∧
     (ime_session_confirm_char c3inact).1 = c3inact ∧
     (ime_session_add_char c3inact 65).1 = c3inact ∧
     (ime_session_add_char16 c3inact 65).1 = c3inact ∧
     (ime_session_backspace c3inact).1 = c3inact ∧
     ime_session_cursor_left c3inact = c3inact ∧
     ime_session_cursor_right c3inact = c3inact ∧
     ime_session_cursor_home c3inact = c3inact ∧
     ime_session_cursor_end c3inact = c3inact ∧
     ime_session_set_selection c3inact 0 1 = c3inact ∧
     ime_session_select_all c3inact = c3inact ∧
     ime_session_delete_selection c3inact = c3inact ∧
     ime_session_copy c3inact = c3inact ∧
     ime_session_cut c3inact = c3inact ∧
     ime_session_paste c3inact = c3inact ∧
     ime_session_update_timing c3inact 1000 = c3inact ∧
     (ime_session_submit c3inact (fun _ => 7)).1 = c3inact ∧
     (ime_session_submit c3inact (fun _ => 7)).2 = (fun _ => 7)) ∧
    (ime_session_submit (ime_session_init zeroSession 0 4 true none)
      (fun _ => 7)).1.state = ImeCustomState.confirming ∧
    (ime_session_cycle (ime_session_init zeroSession 0 4 true none) 1).state =
      (ime_session_init zeroSession 0 4 true none).state ∧
    (ime_session_backspace (ime_session_init zeroSession 0 4 true none)).1.state =
      (ime_session_init zeroSession 0 4 true none).state ∧
    (ime_session_submit c3conf (fun _ => 7)).1.state =
      (if c3conf.state = ImeCustomState.active then ImeCustomState.confirming
       else c3conf.state) ∧
    (ime_session_init c3conf 0 4 true none).state = ImeCustomState.active :=
  ⟨claim_C3.1 c3inact 65 0 1 1 1000 (fun _ => 7) (by decide),
   claim_C3.2.2.2.1 (ime_session_init zeroSession 0 4 true none) (fun _ => 7) (by decide),
   (claim_C3.2.2.2.2.1 (ime_session_init zeroSession 0 4 true none) 65 0 1 1 1000).1,
   (claim_C3.2.2.2.2.1 (ime_session_init zeroSession 0 4 true none) 65 0 1 1 1000).2.2.2.2.1,
   claim_C3.2.2.2.2.2.1 c3conf (fun _ => 7),
   claim_C3.2.2.2.2.2.2 c3conf 0 4 true none⟩

/-- Claim C4, counterexample input: buffer "AB" with partial selection
`[0, 2)`, then `cursor_left`. -/
def c4pre : ImeSession :=
  runEditOps (ime_session_init zeroSession 0 4 false none)
    [EditOp.addChar16 65, EditOp.addChar16 66, EditOp.setSel 0 2]

/-- Claim C4, as stated, is false: cursor movement clears only the
select-all flag; a live partial selection range `[0, 2)` survives
`ime_session_cursor_left` untouched. -/
theorem claim_C4_counterexample :
    c4pre.state = ImeCustomState.active ∧
    c4pre.sel_start = 0 ∧ c4pre.sel_end = 2 ∧
    (ime_session_cursor_left c4pre).sel_start = 0 ∧
    (ime_session_cursor_left c4pre).sel_end = 2 ∧
    (ime_session_cursor_left c4pre).sel_start ≠ (ime_session_cursor_left c4pre).sel_end := by
  decide

/-- Claim C4 (amended): on an Active session each cursor-movement operation
clears the select-all flag but leaves the partial selection range
(`sel_start`, `sel_end`) untouched, keeps the buffer length, and moves the
cursor by one position or to a boundary, clamped to `[0, output_length]`. -/
theorem claim_C4 (s : ImeSession) (hA : s.state = ImeCustomState.active)
    (hInv : Inv s) :
    ((ime_session_cursor_left s).selected_all = false ∧
     (ime_session_cursor_left s).sel_start = s.sel_start ∧
     (ime_session_cursor_left s).sel_end = s.sel_end ∧
     (ime_session_cursor_left s).output_length = s.output_length ∧
     (ime_session_cursor_left s).text_cursor = s.text_cursor - 1 ∧
     (ime_session_cursor_left s).text_cursor ≤ s.output_length) ∧
    ((ime_session_cursor_right s).selected_all = false ∧
     (ime_session_cursor_right s).sel_start = s.sel_start ∧
     (ime_session_cursor_right s).sel_end = s.sel_end ∧
     (ime_session_cursor_right s).output_length = s.output_length ∧
     (ime_session_cursor_right s).text_cursor =
       (if s.text_cursor < s.output_length then s.text_cursor + 1 else s.text_cursor) ∧
     (ime_session_cursor_right s).text_cursor ≤ s.output_length) ∧
    ((ime_session_cursor_home s).selected_all = false ∧
     (ime_session_cursor_home s).sel_start = s.sel_start ∧
     (ime_session_cursor_home s).sel_end = s.sel_end ∧
     (ime_session_cursor_home s).output_length = s.output_length ∧
     (ime_session_cursor_home s).text_cursor = 0) ∧
    ((ime_session_cursor_end s).selected_all = false ∧
     (ime_session_cursor_end s).sel_start = s.sel_start ∧
     (ime_session_cursor_end s).sel_end = s.sel_end ∧
     (ime_session_cursor_end s).output_length = s.output_length ∧
     (ime_session_cursor_end s).text_cursor = s.output_length) := by
  obtain ⟨h1, h2, h3, h4, h5⟩ := hInv
  refine ⟨?_, ?_, ?_, ?_⟩
  · simp only [ime_session_cursor_left]
    rw [if_neg (by simp [hA])]
    split_ifs with hc <;> dsimp only <;>
      exact ⟨rfl, rfl, rfl, rfl, by omega, by omega⟩
  · simp only [ime_session_cursor_right]
    rw [if_neg (by simp [hA])]
    split_ifs with hc <;> dsimp only <;>
      exact ⟨rfl, rfl, rfl, rfl, rfl, by omega⟩
  · simp only [ime_session_cursor_home]
    rw [if_neg (by simp [hA])]
    exact ⟨rfl, rfl, rfl, rfl, rfl⟩
  · simp only [ime_session_cursor_end]
    rw [if_neg (by simp [hA])]
    exact ⟨rfl, rfl, rfl, rfl, rfl⟩

def c4wit : ImeSession :=
  runEditOps (ime_session_init zeroSession 0 4 false none)
    [EditOp.addChar16 65, EditOp.addChar16 66]

theorem claim_C4_witness :
    ((ime_session_cursor_left c4wit).selected_all = false ∧
     (ime_session_cursor_left c4wit).sel_start = c4wit.sel_start ∧
     (ime_session_cursor_left c4wit).sel_end = c4wit.sel_end ∧
     (ime_session_cursor_left c4wit).output_length = c4wit.output_length ∧
     (ime_session_cursor_left c4wit).text_cursor = c4wit.text_cursor - 1 ∧
     (ime_session_cursor_left c4wit).text_cursor ≤ c4wit.output_length) ∧
    ((ime_session_cursor_right c4wit).selected_all = false ∧
     (ime_session_cursor_right c4wit).sel_start = c4wit.sel_start ∧
     (ime_session_cursor_right c4wit).sel_end = c4wit.sel_end ∧
     (ime_session_cursor_right c4wit).output_length = c4wit.output_length ∧
     (ime_session_cursor_right c4wit).text_cursor =
       (if c4wit.text_cursor < c4wit.output_length then c4wit.text_cursor + 1
        else c4wit.text_cursor) ∧
     (ime_session_cursor_right c4wit).text_cursor ≤ c4wit.output_length) ∧
    ((ime_session_cursor_home c4wit).selected_all = false ∧
     (ime_session_cursor_home c4wit).sel_start = c4wit.sel_start ∧
     (ime_session_cursor_home c4wit).sel_end = c4wit.sel_end ∧
     (ime_session_cursor_home c4wit).output_length = c4wit.output_length ∧
     (ime_session_cursor_home c4wit).text_cursor = 0) ∧
    ((ime_session_cursor_end c4wit).selected_all = false ∧
     (ime_session_cursor_end c4wit).sel_start = c4wit.sel_start ∧
     (ime_session_cursor_end c4wit).sel_end = c4wit.sel_end ∧
     (ime_session_cursor_end c4wit).output_length = c4wit.output_length ∧
     (ime_session_cursor_end c4wit).text_cursor = c4wit.output_length) :=
  claim_C4 c4wit (by decide) (by decide)

/-- Claim C8 (confirmed): cycling forward `charset_length` times returns the
cycle cursor to its start; `cycle(-1)` undoes `cycle(+1)`; a negative step
from index 0 wraps to `charset_length - 1`; and `cycle` is a no-op whenever
the charset length is 0. -/
theorem claim_C8 (s : ImeSession) (hA : s.state = ImeCustomState.active)
    (hn : 0 < s.charset_length) (hi : s.cursor_index < s.charset_length) :
    (cycleN s s.charset_length).cursor_index = s.cursor_index ∧
    (ime_session_cycle (ime_session_cycle s 1) (-1)).cursor_index = s.cursor_index ∧
    (s.cursor_index = 0 →
      (ime_session_cycle s (-1)).cursor_index = s.charset_length - 1) ∧
    (∀ (z : ImeSession) (d : Int), z.charset_length = 0 → ime_session_cycle z d = z) := by
  refine ⟨?_, ?_, ?_, ?_⟩
  · rw [cycleN_cursor s hA hn hi s.charset_length, Nat.add_mod_right,
        Nat.mod_eq_of_lt hi]
  · have hf := cycle_fields s 1
    have hj := cycle_one_cursor s hA hn
    set s1 := ime_session_cycle s 1 with hs1
    simp only [ime_session_cycle]
    rw [if_neg (by rw [hf.1]; simp [hA]), if_neg (by rw [hf.2]; omega)]
    dsimp only
    rw [hf.2, hj]
    have harg : ((((s.cursor_index + 1) % s.charset_length : Nat) : Int) + (-1)) =
        (((s.cursor_index + 1) % s.charset_length : Nat) : Int) - 1 := by ring
    rw [harg, wrap_index_sub_one _ _ hn (Nat.mod_lt _ hn)]
    rcases Nat.lt_or_ge (s.cursor_index + 1) s.charset_length with hlt | hge
    · rw [Nat.mod_eq_of_lt hlt]
      rw [if_neg (by omega)]
      omega
    · have hsn : s.cursor_index + 1 = s.charset_length := by omega
      rw [hsn, Nat.mod_self, if_pos rfl]
      omega
  · intro h0
    simp only [ime_session_cycle]
    rw [if_neg (by simp [hA]), if_neg (by omega)]
    dsimp only
    rw [h0]
    have harg : (((0 : Nat) : Int) + (-1)) = ((0 : Nat) : Int) - 1 := by ring
    rw [harg, wrap_index_sub_one 0 s.charset_length hn hn]
    simp
  · intro z d h0
    simp [ime_session_cycle, h0]

/-- Numeric-panel session for the C8 witness (13-character charset). -/
def c8sess : ImeSession :=
  ime_session_init zeroSession ORBIS_IME_PANEL_TYPE_NUMBER 4 false none

theorem claim_C8_witness :
    (cycleN c8sess c8sess.charset_length).cursor_index = c8sess.cursor_index ∧
    (ime_session_cycle (ime_session_cycle c8sess 1) (-1)).cursor_index =
      c8sess.cursor_index ∧
    (c8sess.cursor_index = 0 →
      (ime_session_cycle c8sess (-1)).cursor_index = c8sess.charset_length - 1) ∧
    (∀ (z : ImeSession) (d : Int), z.charset_length = 0 → ime_session_cycle z d = z) :=
  claim_C8 c8sess (by decide) (by decide) (by decide)

/-- A previous-session object full of stale state, for C9. -/
def c9dirty : ImeSession :=
  { zeroSession with
    state := ImeCustomState.active, clipboard := fun _ => 88, clipboard_length := 7,
    sel_start := 5, sel_end := 6, selected_all := true, cursor_index := 3,
    text_cursor := 9, output_length := 9, output := fun _ => 65 }

/-- Claim C9 (confirmed): `ime_session_init` `memset`s the whole session to
zero before setting the new fields, so the result is independent of the
previous contents, and no stale clipboard, selection, cycle cursor, or text
cursor survives. -/
theorem claim_C9 (prev : ImeSession) (panel_type : Int) (max_length : Nat)
    (cb : Bool) (prefill : Option (Nat → Nat)) :
    ime_session_init prev panel_type max_length cb prefill =
      ime_session_init zeroSession panel_type max_length cb prefill ∧
    (ime_session_init prev panel_type max_length cb prefill).clipboard_length = 0 ∧
    (∀ i, (ime_session_init prev panel_type max_length cb prefill).clipboard i = 0) ∧
    (ime_session_init prev panel_type max_length cb prefill).sel_start = 0 ∧
    (ime_session_init prev panel_type max_length cb prefill).sel_end = 0 ∧
    (ime_session_init prev panel_type max_length cb prefill).selected_all = false ∧
    (ime_session_init prev panel_type max_length cb prefill).cursor_index = 0 ∧
    (prefill = none →
      (ime_session_init prev panel_type max_length cb prefill).text_cursor = 0 ∧
      (ime_session_init prev panel_type max_length cb prefill).output_length = 0 ∧
      (∀ i, (ime_session_init prev panel_type max_length cb prefill).output i = 0)) := by
  refine ⟨rfl, ?_⟩
  cases prefill with
  | none =>
      exact ⟨rfl, fun i => rfl, rfl, rfl, rfl, rfl,
        fun _ => ⟨rfl, rfl, fun i => rfl⟩⟩
  | some p =>
      exact ⟨rfl, fun i => rfl, rfl, rfl, rfl, rfl, fun hn => by cases hn⟩

theorem claim_C9_witness :
    ime_session_init c9dirty 0 4 true none =
      ime_session_init zeroSession 0 4 true none ∧
    (ime_session_init c9dirty 0 4 true none).clipboard_length = 0 ∧
    (ime_session_init c9dirty 0 4 true none).clipboard 0 = 0 ∧
    (ime_session_init c9dirty 0 4 true none).sel_start = 0 ∧
    (ime_session_init c9dirty 0 4 true none).sel_end = 0 ∧
    (ime_session_init c9dirty 0 4 true none).selected_all = false ∧
    (ime_session_init c9dirty 0 4 true none).cursor_index = 0 ∧
    (ime_session_init c9dirty 0 4 true none).text_cursor = 0 := by
  have h := claim_C9 c9dirty 0 4 true none
  exact ⟨h.1, h.2.1, h.2.2.1 0, h.2.2.2.1, h.2.2.2.2.1, h.2.2.2.2.2.1,
    h.2.2.2.2.2.2.1, (h.2.2.2.2.2.2.2 rfl).1⟩

/-- Claim C2, counterexample input: `max_output_length = 2`, buffer filled to
"AB" (`output_length = 2 = max`), caller buffer present. -/
def c2full : ImeSession :=
  runEditOps (ime_session_init zeroSession 0 2 true none)
    [EditOp.addChar16 65, EditOp.addChar16 66]

def c2dst : Nat → Nat := fun _ => 99

/-- Claim C2, as stated, is false: `safe_u16_copy` copies at most
`max_output_length - 1` characters, so when the buffer is full
(`output_length == max_output_length`) the last character is dropped and
replaced by the NUL terminator in the caller's buffer. -/
theorem claim_C2_counterexample :
    c2full.state = ImeCustomState.active ∧
    c2full.caller_buffer = true ∧
    c2full.output_length = 2 ∧ c2full.max_output_length = 2 ∧
    c2full.output 0 = 65 ∧ c2full.output 1 = 66 ∧
    (ime_session_submit c2full c2dst).2 0 = 65 ∧
    (ime_session_submit c2full c2dst).2 1 = 0 ∧
    ¬(∀ j, j < c2full.output_length →
        (ime_session_submit c2full c2dst).2 j = c2full.output j) := by
  decide

/-- Claim C2 (amended): on an Active session with a caller buffer, `submit`
sets the state to `Confirming` and copies the buffer into the caller's
destination truncated to `max_output_length - 1` characters and stopping at
an embedded NUL, then NUL-terminates the destination.  In particular the
**full** `output_length` characters arrive whenever
`output_length < max_output_length` and the live prefix is NUL-free; when
the buffer is full the last character is dropped. -/
theorem claim_C2 (s : ImeSession) (dst : Nat → Nat)
    (hA : s.state = ImeCustomState.active) (hcb : s.caller_buffer = true)
    (hlen : s.output_length < s.max_output_length)
    (hnz : ∀ j, j < s.output_length → s.output j ≠ 0)
    (hterm : s.output s.output_length = 0) :
    (ime_session_submit s dst).1.state = ImeCustomState.confirming ∧
    (∀ j, j < s.output_length → (ime_session_submit s dst).2 j = s.output j) ∧
    (ime_session_submit s dst).2 s.output_length = 0 := by
  have hsub : (ime_session_submit s dst).2 =
      safe_u16_copy dst (some s.output) s.max_output_length := by
    simp [ime_session_submit, hA, hcb]
  have hstate : (ime_session_submit s dst).1.state = ImeCustomState.confirming := by
    simp [ime_session_submit, hA]
  have hcopy := u16copyAux_apply s.output s.output_length (s.max_output_length - 1)
    0 dst (by omega)
    (fun j hj => by simpa using hnz j hj)
    (fun hlt => by simpa using hterm)
  refine ⟨hstate, ?_, ?_⟩
  · intro j hj
    rw [hsub]
    unfold safe_u16_copy
    rw [if_neg (by omega)]
    dsimp only
    rw [hcopy j, if_pos (by omega)]
  · rw [hsub]
    unfold safe_u16_copy
    rw [if_neg (by omega)]
    show u16copyAux s.output (s.max_output_length - 1) 0 dst s.output_length = 0
    rw [hcopy s.output_length, if_neg (by omega), if_pos (by omega)]

/-- `max_output_length = 4`, buffer "AB": the whole buffer is copied out. -/
def c2ok : ImeSession :=
  runEditOps (ime_session_init zeroSession 0 4 true none)
    [EditOp.addChar16 65, EditOp.addChar16 66]

theorem claim_C2_witness :
    (ime_session_submit c2ok c2dst).1.state = ImeCustomState.confirming ∧
    (∀ j, j < c2ok.output_length → (ime_session_submit c2ok c2dst).2 j = c2ok.output j) ∧
    (ime_session_submit c2ok c2dst).2 c2ok.output_length = 0 :=
  claim_C2 c2ok c2dst (by decide) (by decide) (by decide) (by decide) (by decide)

/-! ### Characterizations of the clipboard operations (for C5) -/

theorem delete_selection_spec (s : ImeSession)
    (hA : s.state = ImeCustomState.active)
    (hlt : s.sel_start < s.sel_end) (hle : s.sel_end ≤ s.output_length) :
    ime_session_delete_selection s =
      { s with
        output := st (delShiftAux (s.sel_end - s.sel_start)
                    (s.output_length - s.sel_end) s.sel_start s.output)
                  (s.output_length - (s.sel_end - s.sel_start)) 0
        output_length := s.output_length - (s.sel_end - s.sel_start)
        text_cursor := s.sel_start
        sel_start := 0
        sel_end := 0
        selected_all := false } := by
  simp only [ime_session_delete_selection]
  rw [if_neg (by simp [hA]), if_neg (by omega : ¬s.sel_start = s.sel_end),
      if_neg (by omega : ¬s.sel_start > s.sel_end)]
  dsimp only
  rw [if_neg (by omega : ¬s.sel_end > s.output_length),
      if_neg (by omega : ¬s.sel_start > s.output_length),
      show s.sel_start + (s.sel_end - s.sel_start) = s.sel_end by omega]

theorem copy_spec_selall (s : ImeSession)
    (hA : s.state = ImeCustomState.active) (hsa : s.selected_all = true)
    (hmax : s.output_length ≤ IME_MAX_OUTPUT_LENGTH) :
    ime_session_copy s =
      { s with
        clipboard := memcpy16 s.clipboard 0 s.output 0 s.output_length
        clipboard_length := s.output_length } := by
  simp only [ime_session_copy, copyRange]
  rw [if_neg (by simp [hA]), if_pos hsa,
      if_neg (by omega : ¬s.output_length - 0 > IME_MAX_OUTPUT_LENGTH)]
  simp only [Nat.sub_zero]

theorem copy_spec_liverange (s : ImeSession)
    (hA : s.state = ImeCustomState.active) (hsa : s.selected_all = false)
    (hlt : s.sel_start < s.sel_end)
    (hmax : s.output_length ≤ IME_MAX_OUTPUT_LENGTH)
    (hle : s.sel_end ≤ s.output_length) :
    ime_session_copy s =
      { s with
        clipboard := memcpy16 s.clipboard 0 s.output s.sel_start
          (s.sel_end - s.sel_start)
        clipboard_length := s.sel_end - s.sel_start } := by
  simp only [ime_session_copy, copyRange]
  rw [if_neg (by simp [hA]), if_neg (by simp [hsa]),
      if_pos (by omega : s.sel_start ≠ s.sel_end),
      if_neg (by omega : ¬s.sel_start > s.sel_end),
      if_neg (by omega : ¬s.sel_end - s.sel_start > IME_MAX_OUTPUT_LENGTH)]

theorem cut_spec_selall (s : ImeSession)
    (hA : s.state = ImeCustomState.active) (hsa : s.selected_all = true)
    (hpos : 0 < s.output_length)
    (hmax : s.output_length ≤ IME_MAX_OUTPUT_LENGTH) :
    ime_session_cut s =
      { s with
        clipboard := memcpy16 s.clipboard 0 s.output 0 s.output_length
        clipboard_length := s.output_length
        output := st s.output 0 0
        output_length := 0
        text_cursor := 0
        selected_all := false
        sel_start := 0
        sel_end := 0 } := by
  simp only [ime_session_cut]
  rw [if_neg (by simp [hA]), copy_spec_selall s hA hsa hmax]
  rw [if_pos (by dsimp only; omega), if_pos (by dsimp only; exact hsa)]

theorem cut_spec_liverange (s : ImeSession)
    (hA : s.state = ImeCustomState.active) (hsa : s.selected_all = false)
    (hlt : s.sel_start < s.sel_end)
    (hmax : s.output_length ≤ IME_MAX_OUTPUT_LENGTH)
    (hle : s.sel_end ≤ s.output_length) :
    ime_session_cut s =
      { s with
        clipboard := memcpy16 s.clipboard 0 s.output s.sel_start
          (s.sel_end - s.sel_start)
        clipboard_length := s.sel_end - s.sel_start
        output := st (delShiftAux (s.sel_end - s.sel_start)
                    (s.output_length - s.sel_end) s.sel_start s.output)
                  (s.output_length - (s.sel_end - s.sel_start)) 0
        output_length := s.output_length - (s.sel_end - s.sel_start)
        text_cursor := s.sel_start
        sel_start := 0
        sel_end := 0
        selected_all := false } := by
  simp only [ime_session_cut]
  rw [if_neg (by simp [hA]), copy_spec_liverange s hA hsa hlt hmax hle]
  rw [if_pos (by dsimp only; omega), if_neg (by dsimp only; simp [hsa])]
  rw [delete_selection_spec _ (by dsimp only; exact hA) (by dsimp only; exact hlt)
      (by dsimp only; exact hle)]

theorem paste_spec_nosel (s : ImeSession)
    (hA : s.state = ImeCustomState.active) (hsa : s.selected_all = false)
    (heq : s.sel_start = s.sel_end) (hcl : ¬s.clipboard_length = 0)
    (hfit : s.clipboard_length ≤ s.max_output_length - s.output_length)
    (hcur : s.text_cursor ≤ s.output_length) :
    ime_session_paste s =
      { s with
        output := st (memcpy16 (pasteShiftAux s.clipboard_length
                      (s.output_length - s.text_cursor) s.output_length s.output)
                    s.text_cursor s.clipboard 0 s.clipboard_length)
                  (s.output_length + s.clipboard_length) 0
        output_length := s.output_length + s.clipboard_length
        text_cursor := s.text_cursor + s.clipboard_length } := by
  simp only [ime_session_paste]
  split_ifs with c1 c2 c3 c4 c5 c6 c7 <;>
    first
      | rfl
      | (exfalso; omega)
      | (exfalso; simp_all <;> omega)
      | (exfalso; simp_all)

/-- Claim C5 (confirmed): on an Active session with a non-empty active
selection (select-all or a live partial range), `cut` immediately followed by
`paste` restores the buffer contents and length exactly; the needed capacity
is automatically available because the cut freed at least as much room as the
paste consumes. -/
theorem claim_C5 (s : ImeSession) (hA : s.state = ImeCustomState.active)
    (hInv : Inv s)
    (hsel : s.selected_all = true ∨ s.sel_start < s.sel_end) :
    (ime_session_paste (ime_session_cut s)).output_length = s.output_length ∧
    (∀ k, k < s.output_length →
      (ime_session_paste (ime_session_cut s)).output k = s.output k) := by
  obtain ⟨h1, h2, h3, h4, h5⟩ := hInv
  cases hb : s.selected_all with
  | true =>
      rcases Nat.eq_zero_or_pos s.output_length with hz | hpos
      · -- empty buffer under select-all: the cut clears the clipboard length
        -- to 0 and leaves the buffer alone, so the paste is a no-op.
        have hcut : ime_session_cut s =
            { s with clipboard := memcpy16 s.clipboard 0 s.output 0 s.output_length,
                     clipboard_length := s.output_length } := by
          simp only [ime_session_cut]
          rw [if_neg (by simp [hA]), copy_spec_selall s hA hb (by omega)]
          rw [if_neg (by dsimp only; omega)]
        have hpaste : ime_session_paste
            { s with clipboard := memcpy16 s.clipboard 0 s.output 0 s.output_length,
                     clipboard_length := s.output_length } =
            { s with clipboard := memcpy16 s.clipboard 0 s.output 0 s.output_length,
                     clipboard_length := s.output_length } := by
          simp only [ime_session_paste]
          rw [if_neg (by simp [hA]), if_pos (by omega)]
        rw [hcut, hpaste]
        exact ⟨rfl, fun k hk => absurd hk (by omega)⟩
      · rw [cut_spec_selall s hA hb hpos (by omega)]
        rw [paste_spec_nosel _ (by dsimp only; exact hA) rfl rfl
            (by dsimp only; omega) (by dsimp only; omega) (by dsimp only; omega)]
        constructor
        · dsimp only
          omega
        · intro k hk
          dsimp only
          simp only [Nat.sub_zero, Nat.zero_add, pasteShiftAux]
          simp only [st_apply, memcpy16_apply]
          split_ifs <;> first | rfl | (exfalso; omega) | (congr 1; omega)
  | false =>
      have hlt : s.sel_start < s.sel_end := by
        rcases hsel with hx | hx
        · rw [hb] at hx; cases hx
        · exact hx
      have hle : s.sel_end ≤ s.output_length := h5 (by omega)
      rw [cut_spec_liverange s hA hb hlt (by omega) hle]
      rw [paste_spec_nosel _ (by dsimp only; exact hA) rfl rfl
          (by dsimp only; omega) (by dsimp only; omega) (by dsimp only; omega)]
      constructor
      · dsimp only
        omega
      · intro k hk
        dsimp only
        have hp1 : 1 ≤ s.sel_end - s.sel_start := by omega
        have hpp := pasteShiftAux_apply (s.sel_end - s.sel_start) hp1
          (s.output_length - (s.sel_end - s.sel_start) - s.sel_start)
          (s.output_length - (s.sel_end - s.sel_start))
        have hpp2 : ∀ (f : Nat → Nat) (x : Nat),
            pasteShiftAux (s.sel_end - s.sel_start)
              (s.output_length - (s.sel_end - s.sel_start) - s.sel_start)
              (s.output_length - (s.sel_end - s.sel_start)) f x =
            if s.output_length - (s.sel_end - s.sel_start) + (s.sel_end - s.sel_start) ≤
                 x + (s.output_length - (s.sel_end - s.sel_start) - s.sel_start) ∧
               x < s.output_length - (s.sel_end - s.sel_start) + (s.sel_end - s.sel_start)
            then f (x - (s.sel_end - s.sel_start)) else f x :=
          fun f x => hpp f x (by omega)
        simp only [hpp2, st_apply, memcpy16_apply, delShiftAux_apply]
        split_ifs <;> first | rfl | (exfalso; omega) | (congr 1; omega)

/-- Buffer "ABC" with live partial selection `[1, 3)`, for the C5 witness. -/
def c5wit : ImeSession :=
  runEditOps (ime_session_init zeroSession 0 4 false none)
    [EditOp.addChar16 65, EditOp.addChar16 66, EditOp.addChar16 67,
     EditOp.setSel 1 3]

theorem claim_C5_witness :
    (ime_session_paste (ime_session_cut c5wit)).output_length = c5wit.output_length ∧
    (∀ k, k < c5wit.output_length →
      (ime_session_paste (ime_session_cut c5wit)).output k = c5wit.output k) :=
  claim_C5 c5wit (by decide) (by decide) (by decide)

/-! ### SharedStateChannel: `ThumbGridSharedState` and the seqlock protocol -/

/-- `ThumbGridSharedState` from thumbgrid_ipc.h (arrays as lists of 16-bit /
8-bit values). -/
structure TGState where
  sequence : Nat
  ime_active : Nat
  selected_cell : Int
  current_page : Int
  accent_mode : Nat
  output : List Nat
  output_length : Nat
  text_cursor : Nat
  selected_all : Nat
  sel_start : Nat
  sel_end : Nat
  title : List Nat
  page_name : List Nat
  cells : List (List Nat)
  offset_x : Int
  offset_y : Int
  shift_active : Nat
deriving DecidableEq, Repr

/-- `thumbgrid_ipc_read` from thumbgrid_ipc.h.  The reader performs three
separate accesses to the shared region (first `sequence` read, the whole
struct copy, second `sequence` read); a concurrent writer may change the
region between them, so the three accesses observe states `m1`, `m2`, `m3`.
`dst` is the caller's destination struct; the result is the C `int` return
value paired with the destination contents after the call (`seq1 & 1` is
`sequence % 2 = 1`; on the odd-`seq1` path the copy never happens). -/
def thumbgrid_ipc_read (m1 m2 m3 dst : TGState) : Nat × TGState :=
  if m1.sequence % 2 = 1 then (0, dst)
  else
    let d := m2
    if m1.sequence = m3.sequence then (1, d) else (0, d)

/-- One atomic step of the writer protocol of thumbgrid_ipc.h:
`thumbgrid_ipc_write_begin` bumps an even counter to odd, field stores
happen only while the counter is odd and leave it unchanged, and
`thumbgrid_ipc_write_end` bumps the odd counter back to even. -/
inductive WriterStep : TGState → TGState → Prop
  | writeBegin (m : TGState) (h : m.sequence % 2 = 0) :
      WriterStep m { m with sequence := m.sequence + 1 }
  | fieldWrite (m d : TGState) (h : m.sequence % 2 = 1)
      (hseq : d.sequence = m.sequence) : WriterStep m d
  | writeDone (m : TGState) (h : m.sequence % 2 = 1) :
      WriterStep m { m with sequence := m.sequence + 1 }

/-- A history of the shared region under a single writer following the
protocol: at each instant the region is unchanged or one writer step runs. -/
def IsWriterTrace (t : Nat → TGState) : Prop :=
  ∀ n, t (n + 1) = t n ∨ WriterStep (t n) (t (n + 1))

theorem WriterStep.seq_shape {x y : TGState} (h : WriterStep x y) :
    (x.sequence % 2 = 0 ∧ y.sequence = x.sequence + 1) ∨
    (x.sequence % 2 = 1 ∧ y.sequence = x.sequence) ∨
    (x.sequence % 2 = 1 ∧ y.sequence = x.sequence + 1) := by
  cases h with
  | writeBegin hm => exact Or.inl ⟨hm, rfl⟩
  | fieldWrite d hm hseq => exact Or.inr (Or.inl ⟨hm, hseq⟩)
  | writeDone hm => exact Or.inr (Or.inr ⟨hm, rfl⟩)

theorem trace_seq_le (t : Nat → TGState) (ht : IsWriterTrace t) :
    ∀ (a b : Nat), a ≤ b → (t a).sequence ≤ (t b).sequence := by
  intro a b hab
  obtain ⟨k, rfl⟩ := Nat.exists_eq_add_of_le hab
  clear hab
  induction k with
  | zero => exact Nat.le_refl _
  | succ k ih =>
      rcases ht (a + k) with he | hs
      · rw [show a + (k + 1) = (a + k) + 1 from rfl, he]
        exact ih
      · have h2 := hs.seq_shape
        have h3 : (t (a + k)).sequence ≤ (t ((a + k) + 1)).sequence := by omega
        exact Nat.le_trans ih h3

theorem trace_stable (t : Nat → TGState) (ht : IsWriterTrace t) (a : Nat)
    (heven : (t a).sequence % 2 = 0) :
    ∀ k c, a + k ≤ c → (t c).sequence = (t a).sequence → t (a + k) = t a := by
  intro k
  induction k with
  | zero => intro c _ _; rfl
  | succ k ih =>
      intro c hc hseq
      have hk := ih c (by omega) hseq
      rcases ht (a + k) with he | hs
      · rw [show a + (k + 1) = (a + k) + 1 from rfl, he, hk]
      · exfalso
        have hsh := hs.seq_shape
        have hx : (t (a + k)).sequence = (t a).sequence := by rw [hk]
        have hmono := trace_seq_le t ht ((a + k) + 1) c (by omega)
        omega

/-- Claim C6 (confirmed): the read validates a snapshot (returns 1) exactly
when the first-read counter is even and agrees with the second read; on an
odd first read it rejects without even copying; and under the single-writer
protocol a validated snapshot is never torn: it equals the shared record as
it stood at the first counter read. -/
theorem claim_C6 (t : Nat → TGState) (ht : IsWriterTrace t)
    (a b c : Nat) (hab : a ≤ b) (hbc : b ≤ c) (dst : TGState) :
    ((thumbgrid_ipc_read (t a) (t b) (t c) dst).1 = 1 ↔
      (t a).sequence % 2 = 0 ∧ (t a).sequence = (t c).sequence) ∧
    ((thumbgrid_ipc_read (t a) (t b) (t c) dst).1 = 1 →
      (thumbgrid_ipc_read (t a) (t b) (t c) dst).2 = t b ∧ t b = t a) ∧
    ((t a).sequence % 2 = 1 →
      thumbgrid_ipc_read (t a) (t b) (t c) dst = (0, dst)) := by
  unfold thumbgrid_ipc_read
  by_cases h1 : (t a).sequence % 2 = 1
  · rw [if_pos h1]
    refine ⟨⟨fun h => absurd h (by omega), fun h => absurd h.1 (by omega)⟩,
      fun h => absurd h (by omega), fun _ => rfl⟩
  · rw [if_neg h1]
    by_cases h2 : (t a).sequence = (t c).sequence
    · rw [if_pos h2]
      have heq := trace_stable t ht a (by omega) (b - a) c (by omega) h2.symm
      rw [show a + (b - a) = b by omega] at heq
      exact ⟨⟨fun _ => ⟨by omega, h2⟩, fun _ => rfl⟩, fun _ => ⟨rfl, heq⟩,
        fun hodd => absurd hodd h1⟩
    · rw [if_neg h2]
      exact ⟨⟨fun h => absurd h (by omega), fun h => absurd h.2 h2⟩,
        fun h => absurd h (by omega), fun hodd => absurd hodd h1⟩

/-- A consistent published record: counter 42 (even), session active. -/
def c6shared : TGState :=
  ⟨42, 1, 4, 0, 0, [65], 1, 1, 0, 0, 0, [], [97, 98, 99], [], 0, 0, 0⟩

def c6dst : TGState := ⟨0, 0, 0, 0, 0, [], 0, 0, 0, 0, 0, [], [], [], 0, 0, 0⟩

/-- The idle history: the writer does nothing, the region stays published. -/
def c6trace : Nat → TGState := fun _ => c6shared

theorem claim_C6_witness :
    ((thumbgrid_ipc_read (c6trace 0) (c6trace 1) (c6trace 2) c6dst).1 = 1 ↔
      (c6trace 0).sequence % 2 = 0 ∧ (c6trace 0).sequence = (c6trace 2).sequence) ∧
    ((thumbgrid_ipc_read (c6trace 0) (c6trace 1) (c6trace 2) c6dst).1 = 1 →
      (thumbgrid_ipc_read (c6trace 0) (c6trace 1) (c6trace 2) c6dst).2 = c6trace 1 ∧
      c6trace 1 = c6trace 0) ∧
    ((c6trace 0).sequence % 2 = 1 →
      thumbgrid_ipc_read (c6trace 0) (c6trace 1) (c6trace 2) c6dst = (0, c6dst)) :=
  claim_C6 c6trace (fun _ => Or.inl rfl) 0 1 2 (by omega) (by omega) c6dst

/-! ### The shell-side poll loop (staleness detection, C7) -/

/-- The poll thread's sequence-tracking locals (`last_seq`,
`last_seq_change_us` in `poll_thread`). -/
structure PollState where
  last_seq : Nat
  last_seq_change_us : Nat
deriving DecidableEq, Repr

/-- `IPC_STALE_TIMEOUT_US` from shell-overlay/src/main.c. -/
def IPC_STALE_TIMEOUT_US : Nat := 2000000

/-- The body of one `poll_thread` iteration of shell-overlay/src/main.c
after `thumbgrid_ipc_read` succeeded with snapshot `snap` at time `now_us`
(`sceKernelGetProcessTime`), with `shared` the mapped record.  Returns the
new tracking state, the shared record after the iteration (the stale path
stores `ime_active = 0` and `sequence = 0` into it), and the snapshot handed
to `update_widgets` (the stale path forces its `ime_active` to 0). -/
def poll_step (ps : PollState) (now_us : Nat) (snap shared : TGState) :
    PollState × TGState × TGState :=
  let last_seq := if snap.sequence ≠ ps.last_seq then snap.sequence else ps.last_seq
  let last_change := if snap.sequence ≠ ps.last_seq then now_us else ps.last_seq_change_us
  if snap.ime_active ≠ 0 ∧ 0 < last_change ∧
     IPC_STALE_TIMEOUT_US < now_us - last_change then
    (⟨0, 0⟩, { shared with ime_active := 0, sequence := 0 },
     { snap with ime_active := 0 })
  else
    (⟨last_seq, last_change⟩, shared, snap)

/-- Claim C7 (confirmed): with the shared record frozen (sequence stuck at a
nonzero even value such as 42, active flag set), the reader's
`thumbgrid_ipc_read` keeps succeeding with that record; the first poll
iteration (at time `t0`) records the counter, and an iteration at `t1` with
`t1 - t0` beyond the 2-second staleness timeout reports the session inactive
to `update_widgets` and resets the shared record itself, leaving its stored
counter even (0) and its active flag clear. -/
theorem claim_C7 (sh dst : TGState) (t0 t1 : Nat)
    (heven : sh.sequence % 2 = 0) (hact : sh.ime_active ≠ 0)
    (hnz : sh.sequence ≠ 0) (ht0 : 0 < t0) (h01 : t0 ≤ t1)
    (hstale : IPC_STALE_TIMEOUT_US < t1 - t0) :
    (thumbgrid_ipc_read sh sh sh dst).1 = 1 ∧
    (thumbgrid_ipc_read sh sh sh dst).2 = sh ∧
    (poll_step (poll_step ⟨0, 0⟩ t0 sh sh).1 t1 sh
        (poll_step ⟨0, 0⟩ t0 sh sh).2.1).2.2.ime_active = 0 ∧
    (poll_step (poll_step ⟨0, 0⟩ t0 sh sh).1 t1 sh
        (poll_step ⟨0, 0⟩ t0 sh sh).2.1).2.1.ime_active = 0 ∧
    (poll_step (poll_step ⟨0, 0⟩ t0 sh sh).1 t1 sh
        (poll_step ⟨0, 0⟩ t0 sh sh).2.1).2.1.sequence % 2 = 0 := by
  have hread1 : (thumbgrid_ipc_read sh sh sh dst).1 = 1 := by
    unfold thumbgrid_ipc_read
    rw [if_neg (by omega), if_pos rfl]
  have hread2 : (thumbgrid_ipc_read sh sh sh dst).2 = sh := by
    unfold thumbgrid_ipc_read
    rw [if_neg (by omega), if_pos rfl]
  have hstep1 : poll_step ⟨0, 0⟩ t0 sh sh = (⟨sh.sequence, t0⟩, sh, sh) := by
    simp only [poll_step]
    split_ifs <;> first | rfl | (exfalso; omega)
  have hstep2 : poll_step ⟨sh.sequence, t0⟩ t1 sh sh =
      (⟨0, 0⟩, { sh with ime_active := 0, sequence := 0 },
       { sh with ime_active := 0 }) := by
    simp only [poll_step]
    split_ifs <;> first | rfl | (exfalso; omega)
  rw [hstep1]
  dsimp only
  rw [hstep2]
  exact ⟨hread1, hread2, rfl, rfl, rfl⟩

/-- Frozen shared record with `sequence = 42` and the active flag set. -/
def c7shared : TGState :=
  ⟨42, 1, 4, 0, 0, [65], 1, 1, 0, 0, 0, [], [97, 98, 99], [], 0, 0, 0⟩

theorem claim_C7_witness :
    (thumbgrid_ipc_read c7shared c7shared c7shared c6dst).1 = 1 ∧
    (thumbgrid_ipc_read c7shared c7shared c7shared c6dst).2 = c7shared ∧
    (poll_step (poll_step ⟨0, 0⟩ 1 c7shared c7shared).1 2000002 c7shared
        (poll_step ⟨0, 0⟩ 1 c7shared c7shared).2.1).2.2.ime_active = 0 ∧
    (poll_step (poll_step ⟨0, 0⟩ 1 c7shared c7shared).1 2000002 c7shared
        (poll_step ⟨0, 0⟩ 1 c7shared c7shared).2.1).2.1.ime_active = 0 ∧
    (poll_step (poll_step ⟨0, 0⟩ 1 c7shared c7shared).1 2000002 c7shared
        (poll_step ⟨0, 0⟩ 1 c7shared c7shared).2.1).2.1.sequence % 2 = 0 :=
  claim_C7 c7shared c6dst 1 2000002 (by decide) (by decide) (by decide)
    (by decide) (by omega) (by decide)

/-! ### Store-index instrumentation for the `output` array (C10)

Each `..._writes` function enumerates, in program order, the array index of
every store `output[i] = v` the corresponding C function executes, following
exactly the same guards and loop bounds as the function itself. -/

/-- Indices of an ascending loop writing `i, i + 1, ...` (`fuel` stores). -/
def ascWrites : Nat → Nat → List Nat
  | 0, _ => []
  | fuel + 1, i => i :: ascWrites fuel (i + 1)

/-- Indices of a descending loop writing `i, i - 1, ...` (`fuel` stores). -/
def descWrites : Nat → Nat → List Nat
  | 0, _ => []
  | fuel + 1, i => i :: descWrites fuel (i - 1)

/-- Indices of the paste right-shift loop: it stores at `i + paste_len - 1`
with `i` descending (`fuel` stores). -/
def pasteShiftWrites (paste_len : Nat) : Nat → Nat → List Nat
  | 0, _ => []
  | fuel + 1, i => (i + paste_len - 1) :: pasteShiftWrites paste_len fuel (i - 1)

/-- Store indices of `ime_session_delete_selection` into `output`: the
shift-left loop from `s` plus the terminator store at the new length. -/
def delete_selection_writes (s : ImeSession) : List Nat :=
  if s.state ≠ ImeCustomState.active then []
  else if s.sel_start = s.sel_end then []
  else
    let p := if s.sel_start > s.sel_end then (s.sel_end, s.sel_start)
             else (s.sel_start, s.sel_end)
    let a := p.1
    let e := if p.2 > s.output_length then s.output_length else p.2
    if a > s.output_length then []
    else
      let del_len := e - a
      ascWrites (s.output_length - (a + del_len)) a ++
        [s.output_length - del_len]

/-- Store indices of `clear_if_selected` into `output` (`output[0] = 0` on
the select-all path, the delete-selection stores on the partial path). -/
def clear_if_selected_writes (s : ImeSession) : List Nat :=
  if s.selected_all then [0]
  else if s.sel_start ≠ s.sel_end then delete_selection_writes s
  else []

/-- Store indices of `ime_session_add_char16` into `output`: the implicit
selection delete, the right-shift loop (`output[i] = output[i-1]` for `i`
from `output_length` down to `pos + 1`), the store at `pos`, and the
trailing terminator store at the *incremented* `output_length`. -/
def ime_session_add_char16_writes (s0 : ImeSession) : List Nat :=
  if s0.state ≠ ImeCustomState.active then []
  else
    let w1 := clear_if_selected_writes s0
    let s := clear_if_selected s0
    if s.output_length ≥ s.max_output_length then w1
    else
      let pos := if s.text_cursor > s.output_length then s.output_length
                 else s.text_cursor
      w1 ++ descWrites (s.output_length - pos) s.output_length ++
        [pos, s.output_length + 1]

/-- Store indices of `ime_session_confirm_char` into `output`: the appended
character at `output_length` and the terminator at the incremented length. -/
def ime_session_confirm_char_writes (s : ImeSession) : List Nat :=
  if s.state ≠ ImeCustomState.active then []
  else if s.output_length ≥ s.max_output_length then []
  else if s.cursor_index ≥ s.charset_length then []
  else [s.output_length, s.output_length + 1]

/-- Store indices of `ime_session_paste` into `output`: the selection
pre-delete (same effect as `clear_if_selected`), the right-shift loop
(stores at `i + paste_len - 1`), the `memcpy` into `[pos, pos + paste_len)`,
and the terminator store at the new length. -/
def ime_session_paste_writes (s0 : ImeSession) : List Nat :=
  if s0.state ≠ ImeCustomState.active then []
  else if s0.clipboard_length = 0 then []
  else
    let w1 := clear_if_selected_writes s0
    let s := clear_if_selected s0
    let avail := s.max_output_length - s.output_length
    let paste_len := if s.clipboard_length > avail then avail
                     else s.clipboard_length
    if paste_len = 0 then w1
    else
      let pos := if s.text_cursor > s.output_length then s.output_length
                 else s.text_cursor
      w1 ++ pasteShiftWrites paste_len (s.output_length - pos) s.output_length ++
        ascWrites paste_len pos ++ [s.output_length + paste_len]

/-- A fresh default-panel session with capacity 256. -/
def c10init : ImeSession := ime_session_init zeroSession 0 256 false none

/-- A session at `max_output_length = 256` filled with 255 characters. -/
def c10sess : ImeSession :=
  runEditOps c10init (List.replicate 255 (EditOp.addChar16 65))

/-- One inserted character, selected, copied to the clipboard, selection
cleared: a 1-character buffer with a 1-character clipboard. -/
def c10base : ImeSession :=
  ime_session_clear_selection
    (ime_session_copy
      (ime_session_select_all (runEditOps c10init [EditOp.addChar16 65])))

/-- `c10base` filled up to 255 characters, keeping its clipboard. -/
def c10paste : ImeSession :=
  runEditOps c10base (List.replicate 254 (EditOp.addChar16 65))

/-- A "plain" session: Active, no selection, cursor at the end of a
`j`-character buffer, capacity 256, cycle cursor 0 on a non-empty charset,
clipboard of length `cl`.  Every state reached from
`ime_session_init(.., 256, ..)` by end-insertions is of this shape. -/
def IsPlain (j cl : Nat) (s : ImeSession) : Prop :=
  s.state = ImeCustomState.active ∧ s.selected_all = false ∧
  s.sel_start = 0 ∧ s.sel_end = 0 ∧ s.text_cursor = j ∧ s.output_length = j ∧
  s.max_output_length = 256 ∧ s.cursor_index = 0 ∧ 0 < s.charset_length ∧
  s.clipboard_length = cl

instance (j cl : Nat) (s : ImeSession) : Decidable (IsPlain j cl s) := by
  unfold IsPlain
  infer_instance

theorem add_plain (s : ImeSession) (j cl : Nat) (h : IsPlain j cl s)
    (hj : j < 256) (c : Nat) :
    IsPlain (j + 1) cl (ime_session_add_char16 s c).1 := by
  obtain ⟨p1, p2, p3, p4, p5, p6, p7, p8, p9, p10⟩ := h
  have hclr : clear_if_selected s = s := by
    simp only [clear_if_selected]
    rw [if_neg (by simp [p2]), if_neg (by omega)]
  simp only [ime_session_add_char16, hclr]
  rw [if_neg (by simp [p1]), if_neg (by omega), if_neg (by omega)]
  dsimp only [IsPlain]
  exact ⟨p1, p2, p3, p4, by omega, by omega, p7, p8, p9, p10⟩

theorem addN_plain : ∀ (k j cl : Nat) (s : ImeSession), IsPlain j cl s →
    j + k ≤ 256 →
    IsPlain (j + k) cl (runEditOps s (List.replicate k (EditOp.addChar16 65))) := by
  intro k
  induction k with
  | zero =>
      intro j cl s h _
      simpa [runEditOps, List.replicate] using h
  | succ k ih =>
      intro j cl s h hle
      have hstep := add_plain s j cl h (by omega) 65
      have h2 := ih (j + 1) cl _ hstep (by omega)
      rw [show j + (k + 1) = (j + 1) + k by omega]
      simp only [runEditOps, List.replicate, List.foldl] at h2 ⊢
      exact h2

theorem c10sess_plain : IsPlain 255 0 c10sess := by
  have hbase : IsPlain 0 0 c10init := by decide
  have h := addN_plain 255 0 0 c10init hbase (by omega)
  rw [Nat.zero_add] at h
  exact h

theorem c10paste_plain : IsPlain 255 1 c10paste := by
  have hbase : IsPlain 1 1 c10base := by decide
  have h := addN_plain 254 1 1 c10base hbase (by omega)
  rw [show (1 : Nat) + 254 = 255 from rfl] at h
  exact h

theorem add_writes_plain (s : ImeSession) (j cl : Nat) (h : IsPlain j cl s)
    (hj : j < 256) : ime_session_add_char16_writes s = [j, j + 1] := by
  obtain ⟨p1, p2, p3, p4, p5, p6, p7, p8, p9, p10⟩ := h
  have hclr : clear_if_selected s = s := by
    simp only [clear_if_selected]
    rw [if_neg (by simp [p2]), if_neg (by omega)]
  simp only [ime_session_add_char16_writes, clear_if_selected_writes, hclr]
  split_ifs <;> first
    | (exfalso; omega)
    | (rw [p5, p6, show j - j = 0 from by omega]; rfl)
    | rfl
    | (exfalso; simp_all)

theorem confirm_writes_plain (s : ImeSession) (j cl : Nat) (h : IsPlain j cl s)
    (hj : j < 256) : ime_session_confirm_char_writes s = [j, j + 1] := by
  obtain ⟨p1, p2, p3, p4, p5, p6, p7, p8, p9, p10⟩ := h
  simp only [ime_session_confirm_char_writes]
  split_ifs <;> first
    | (exfalso; omega)
    | (rw [p6])
    | rfl
    | (exfalso; simp_all)

theorem paste_writes_plain (s : ImeSession) (h : IsPlain 255 1 s) :
    ime_session_paste_writes s = [255, 256] := by
  obtain ⟨p1, p2, p3, p4, p5, p6, p7, p8, p9, p10⟩ := h
  have hclr : clear_if_selected s = s := by
    simp only [clear_if_selected]
    rw [if_neg (by simp [p2]), if_neg (by omega)]
  simp only [ime_session_paste_writes, clear_if_selected_writes, hclr]
  split_ifs <;> first
    | (exfalso; omega)
    | (rw [p5, p6, p10]; rfl)
    | rfl
    | (exfalso; simp_all)

/-- Claim C10 is violated by the code: on a reachable session with
`max_output_length = 256` and `output_length = 255`, the trailing terminator
store `output[output_length] = 0` of `ime_session_add_char16` (performed
after the increment), of `ime_session_confirm_char`, and of
`ime_session_paste` uses index 256 — one past the end of the 256-element
`output` array. -/
theorem claim_C10 :
    c10sess.state = ImeCustomState.active ∧
    c10sess.max_output_length = 256 ∧
    c10sess.output_length = 255 ∧
    (ime_session_add_char16 c10sess 66).1.output_length = 256 ∧
    256 ∈ ime_session_add_char16_writes c10sess ∧
    256 ∈ ime_session_confirm_char_writes c10sess ∧
    c10paste.output_length = 255 ∧
    c10paste.clipboard_length = 1 ∧
    256 ∈ ime_session_paste_writes c10paste ∧
    ¬(∀ i, i ∈ ime_session_add_char16_writes c10sess →
        i < IME_MAX_OUTPUT_LENGTH) := by
  have hp := c10sess_plain
  have hq := c10paste_plain
  refine ⟨hp.1, hp.2.2.2.2.2.2.1, hp.2.2.2.2.2.1, ?_, ?_, ?_,
    hq.2.2.2.2.2.1, hq.2.2.2.2.2.2.2.2.2, ?_, ?_⟩
  · exact (add_plain c10sess 255 0 hp (by omega) 66).2.2.2.2.2.1
  · rw [add_writes_plain c10sess 255 0 hp (by omega)]
    simp
  · rw [confirm_writes_plain c10sess 255 0 hp (by omega)]
    simp
  · rw [paste_writes_plain c10paste hq]
    simp
  · rw [add_writes_plain c10sess 255 0 hp (by omega)]
    intro hall
    have h256 := hall 256 (by simp)
    simp only [IME_MAX_OUTPUT_LENGTH] at h256
    omega

end ThumbGridIme
